import Mathlib

/-!
# Verification of the expense-tracker pipeline model

A shallow embedding of the expense-tracker repository: the persistence
adapter (`database/supabase_client.py`), the insights analyzer
(`pipeline/financial_insights.py`), the OCR extractor
(`pipeline/ocr_model.py`) and the request handlers (`api/main.py`).

External collaborators (the Supabase row store, the hosted language model,
the filesystem) are modelled as explicit inputs: a backend query outcome, a
stubbed model reply, a call trace.  Python exceptions are modelled with
`Except`; Python `json.dumps` / `json.loads` are implemented concretely on
an inductive JSON type and proved to round-trip.
-/

set_option maxHeartbeats 1000000
set_option maxRecDepth 4000

/-! ## JSON values

Python JSON-serializable values, with integers for numbers (floats are not
modelled).  Objects are association lists in insertion order, as Python
dicts preserve insertion order. -/

inductive Json where
  | null : Json
  | bool (b : Bool) : Json
  | num (n : Int) : Json
  | str (s : String) : Json
  | arr (elems : List Json) : Json
  | obj (fields : List (String × Json)) : Json

/-- Key lookup in a JSON object association list (first match, like a dict). -/
def lookupField (fields : List (String × Json)) (k : String) : Option Json :=
  match fields with
  | [] => none
  | (k0, v) :: rest => if k0 = k then some v else lookupField rest k

/-- Python `k in d` on a dict modelled as an association list. -/
def hasField (fields : List (String × Json)) (k : String) : Bool :=
  match fields with
  | [] => false
  | (k0, _) :: rest => if k0 = k then true else hasField rest k

/-- Python `d.get(k, default)` for a JSON value that may not be a dict is not
needed; this is `d.get(k, default)` on an object's field list. -/
def getField (fields : List (String × Json)) (k : String) (default : Json) : Json :=
  match lookupField fields k with
  | some v => v
  | none => default

/-! ## The persistence adapter (`database/supabase_client.py`)

Each operation is a function of the backend outcome (the Supabase query
either raises, returns no data, or returns rows) or of an explicit table
of rows, plus the current timestamp where the code stamps `datetime.now()`. -/

/-- One row of the `expenses` table, as fetched by
`SupabaseClient.fetch_user_expenses`.  Amounts are rationals (Python
floats are not modelled bit-for-bit; the fold structure is identical). -/
structure DbExpense where
  user_id : String
  bill_no : Option String
  expence_name : String
  amount : ℚ
  category : String
  mode : String
  created_date : ℕ
deriving Repr, DecidableEq

/-- Outcome of the Supabase `select` call inside `fetch_user_expenses`:
the client raises, or returns a response whose `.data` is `None` or a list. -/
inductive ExpBackend where
  | raised (msg : String) : ExpBackend
  | ok (data : Option (List DbExpense)) : ExpBackend
deriving Repr, DecidableEq

/-- `SupabaseClient.fetch_user_expenses` (supabase_client.py:70-96): the
query result is returned (`result.data if result.data else []`); any
exception is swallowed and the empty list returned. -/
def fetch_user_expenses (b : ExpBackend) : List DbExpense :=
  match b with
  | .raised _ => []
  | .ok none => []
  | .ok (some l) => if l = [] then [] else l

/-- Per-category accumulator entry of `get_expense_summary`. -/
structure CategoryStat where
  amount : ℚ
  count : ℕ
deriving Repr, DecidableEq

/-- Result of `get_expense_summary`: the summary dict (`period_days` is
absent in the empty-data early return, hence the `Option`), or the
`{"error": ...}` dict from the `except` branch. -/
inductive SummaryResult where
  | summary (total : ℚ) (count : ℕ) (categories : List (String × CategoryStat))
      (period_days : Option ℕ) : SummaryResult
  | errorResult (msg : String) : SummaryResult
deriving Repr, DecidableEq

def SummaryResult.total? : SummaryResult → Option ℚ
  | .summary t _ _ _ => some t
  | .errorResult _ => none

def SummaryResult.count? : SummaryResult → Option ℕ
  | .summary _ c _ _ => some c
  | .errorResult _ => none

/-- The category-fold step of `get_expense_summary` (supabase_client.py:111-116):
`if category not in categories: categories[category] = {amount:0, count:0}`
then `+= amount` / `+= 1`, on an insertion-ordered association list. -/
def addToCategories (cats : List (String × CategoryStat)) (cat : String) (amt : ℚ) :
    List (String × CategoryStat) :=
  match cats with
  | [] => [(cat, ⟨amt, 1⟩)]
  | (c, st) :: rest =>
      if c = cat then (c, ⟨st.amount + amt, st.count + 1⟩) :: rest
      else (c, st) :: addToCategories rest cat amt

/-- Python `sum(expense["amount"] for expense in expenses)`: a left fold from 0. -/
def pySum (l : List ℚ) : ℚ := l.foldl (· + ·) 0

/-- `SupabaseClient.get_expense_summary` (supabase_client.py:98-127): fetch,
early-return `{total:0, count:0, categories:{}}` on the empty list, else
fold the total and the per-category stats and include `period_days`. -/
def get_expense_summary (b : ExpBackend) (days : ℕ) : SummaryResult :=
  let expenses := fetch_user_expenses b
  if expenses = [] then .summary 0 0 [] none
  else
    .summary (pySum (expenses.map (·.amount))) expenses.length
      (expenses.foldl (fun cats e => addToCategories cats e.category e.amount) [])
      (some days)

/-! ## User profiles -/

/-- The profile payload columns (spec §3 UserProfile), the caller-supplied
`profile_data` of `upsert_user_profile`. -/
structure ProfileData where
  monthly_income : ℚ
  savings_goal : ℚ
  current_savings : ℚ
  debt_amount : ℚ
  financial_goals : String
deriving Repr, DecidableEq

/-- One row of the `user_profiles` table.  `created_date` is `none` for a
row never stamped by the insert path. -/
structure ProfileRow where
  user_id : String
  data : ProfileData
  created_date : Option ℕ
  updated_date : ℕ
deriving Repr, DecidableEq

/-- `SupabaseClient.fetch_user_profile` (supabase_client.py:130-152):
`select * where user_id = uid`, returning `result.data[0]` when nonempty
and `{}` (here `none`) otherwise. -/
def fetch_user_profile (store : List ProfileRow) (uid : String) : Option ProfileRow :=
  (store.filter (fun r => r.user_id = uid)).head?

/-- Result dict of `upsert_user_profile`: `{"success": True, "data": ...}`
(the fixture store itself never raises, so `success` is always true here;
the field records which path stamped what). -/
structure UpsertResult where
  success : Bool
deriving Repr, DecidableEq

/-- `SupabaseClient.upsert_user_profile` (supabase_client.py:154-196):
build `profile_record` with `updated_date = now`; fetch the profile; if
present, `update ... eq user_id` (sets the record's columns on every
matching row, leaving `created_date` alone); if absent, additionally stamp
`created_date` and insert a new row. -/
def upsert_user_profile (store : List ProfileRow) (uid : String) (d : ProfileData)
    (now : ℕ) : UpsertResult × List ProfileRow :=
  match fetch_user_profile store uid with
  | some _ =>
      (⟨true⟩, store.map (fun r =>
        if r.user_id = uid then { r with data := d, updated_date := now } else r))
  | none =>
      (⟨true⟩, store ++ [{ user_id := uid, data := d, created_date := some now,
                           updated_date := now }])

/-! ## Exceptions, call traces and substring matching -/

/-- Exceptions that can escape `ExpenseExtractor.extract_expense` into the
request handlers: the model client's `InvalidArgument`, a
`json.JSONDecodeError`, a `ValueError` (the unsupported-input-type raise),
or any other exception.  The payload is the exception's `str(e)`. -/
inductive ExtractErr where
  | invalidArgument (msg : String) : ExtractErr
  | jsonDecodeError (msg : String) : ExtractErr
  | valueError (msg : String) : ExtractErr
  | otherError (msg : String) : ExtractErr
deriving Repr, DecidableEq

/-- Python `str(e)` of an extractor exception. -/
def ExtractErr.msg : ExtractErr → String
  | .invalidArgument m => m
  | .jsonDecodeError m => m
  | .valueError m => m
  | .otherError m => m

/-- Observable side-effecting calls made while serving a request: the
database reads/writes and the model invocation. -/
inductive Call where
  | dbFetchExpenses (days : ℕ) : Call
  | dbFetchProfile : Call
  | modelInvoke : Call
  | dbInsertExpenses (uid : String) : Call
deriving Repr, DecidableEq

def startsWithChars : List Char → List Char → Bool
  | [], _ => true
  | _ :: _, [] => false
  | n :: ns, c :: cs => if c = n then startsWithChars ns cs else false

def containsChars (needle : List Char) : List Char → Bool
  | [] => startsWithChars needle []
  | c :: cs => startsWithChars needle (c :: cs) || containsChars needle cs

/-- Python `needle in hay` on strings. -/
def strContains (hay needle : String) : Bool := containsChars needle.data hay.data

/-- An `HTTPException` as the framework renders it: status code plus the
`detail` payload (a JSON value; every detail in this codebase is a string). -/
structure HttpError where
  status : ℕ
  detail : Json

/-- Python `str()` of a JSON value, as an f-string would render the
`detail` object (only string details occur in this codebase). -/
def jsonPyStr : Json → String
  | .str s => s
  | .null => "None"
  | .bool true => "True"
  | .bool false => "False"
  | .num n => toString n
  | .arr _ => ""
  | .obj _ => ""

/-- `str(e)` of an exception inside a handler: for a caught
`HTTPException`, starlette renders `f"{status_code}: {detail}"`. -/
def httpErrStr (e : HttpError) : String := toString e.status ++ ": " ++ jsonPyStr e.detail

/-- Python dict assignment `d[k] = v`: replace in place when the key
exists, else append. -/
def setField (fields : List (String × Json)) (k : String) (v : Json) :
    List (String × Json) :=
  match fields with
  | [] => [(k, v)]
  | (k0, v0) :: rest => if k0 = k then (k0, v) :: rest else (k0, v0) :: setField rest k v

/-! ## The OCR extractor (`pipeline/ocr_model.py`) -/

/-- The `input_data` argument of `extract_expense`: a file path (with the
mime type `mimetypes.guess_type` would report for it) or an in-memory
image (bytes / numpy matrix). -/
inductive OcrInput where
  | filePath (path : String) (mime : Option String) : OcrInput
  | rawImage : OcrInput
deriving Repr, DecidableEq

/-- Outcomes of the external steps of `extract_expense`: base64-encoding
the image (file read), extracting PDF text, invoking the model, and
`JsonOutputParser().parse` on the reply. -/
structure OcrEnv where
  imageB64 : Except ExtractErr String
  pdfText : Except ExtractErr String
  modelContent : Except ExtractErr String
  parseContent : String → Except ExtractErr Json

/-- `ExpenseExtractor.extract_expense` (ocr_model.py:48-83): resolve the
input type (explicit argument, else mime sniffing for paths, else image),
encode and prompt for images, extract text and prompt for PDFs, and raise
`ValueError` for any other explicit type before touching the model.  The
second component is the trace of model invocations. -/
def extract_expense (env : OcrEnv) (input : OcrInput) (input_type : Option String) :
    Except ExtractErr Json × List Call :=
  let t := match input_type with
    | some t => t
    | none => match input with
        | .filePath _ (some m) => if m = "application/pdf" then "pdf" else "image"
        | .filePath _ none => "image"
        | .rawImage => "image"
  if t = "image" then
    match env.imageB64 with
    | .error e => (.error e, [])
    | .ok _ =>
        match env.modelContent with
        | .error e => (.error e, [.modelInvoke])
        | .ok content => (env.parseContent content, [.modelInvoke])
  else if t = "pdf" then
    match env.pdfText with
    | .error e => (.error e, [])
    | .ok _ =>
        match env.modelContent with
        | .error e => (.error e, [.modelInvoke])
        | .ok content => (env.parseContent content, [.modelInvoke])
  else
    (.error (.valueError "Invalid input_type. Use \x27image\x27 or \x27pdf\x27."), [])

/-! ## The insights analyzer (`pipeline/financial_insights.py`) -/

/-- External collaborators of `FinancialInsightsAnalyzer`: its own
database fetches (which already swallow errors internally, returning `[]`
or `{}`), the model reply as parsed by `JsonOutputParser` (or the raised
exception's message), and the clock. -/
structure InsightsEnv where
  expensesFor : ℕ → List DbExpense
  profile : List (String × Json)
  modelReply : Except String Json
  nowIso : String

/-- `FinancialInsightsAnalyzer.analyze_comprehensive_insights`
(financial_insights.py:129-231): fetch expenses and profile; with no
expense rows return `{"error": "No expense data found for user", ...}`
without invoking the model; otherwise prompt the model, parse, and stamp
`user_id` and `generated_at` into the parsed dict; any exception in that
block becomes `{"error": f"Analysis failed: ...", ...}`. -/
def analyze_comprehensive_insights (env : InsightsEnv) (uid : String) (period : ℕ) :
    List (String × Json) × List Call :=
  let expenses := env.expensesFor period
  let calls := [Call.dbFetchExpenses period, Call.dbFetchProfile]
  if expenses = [] then
    ([("error", .str "No expense data found for user"), ("user_id", .str uid)], calls)
  else
    match env.modelReply with
    | .ok (.obj fields) =>
        (setField (setField fields "user_id" (.str uid)) "generated_at"
          (.str env.nowIso), calls ++ [.modelInvoke])
    | .ok _ =>
        ([("error", .str "Analysis failed: parsed reply is not an object"),
          ("user_id", .str uid)], calls ++ [.modelInvoke])
    | .error m =>
        ([("error", .str ("Analysis failed: " ++ m)), ("user_id", .str uid)],
         calls ++ [.modelInvoke])

/-- `FinancialInsightsAnalyzer.generate_smart_budget`
(financial_insights.py:233-305): fetch a 60-day window and the profile,
always prompt the model (no empty-data early return), stamp `user_id` and
`generated_at`; exceptions become `{"error": f"Budget generation failed:
...", ...}`. -/
def generate_smart_budget (env : InsightsEnv) (uid : String) :
    List (String × Json) × List Call :=
  let calls := [Call.dbFetchExpenses 60, Call.dbFetchProfile, Call.modelInvoke]
  match env.modelReply with
  | .ok (.obj fields) =>
      (setField (setField fields "user_id" (.str uid)) "generated_at"
        (.str env.nowIso), calls)
  | .ok _ =>
      ([("error", .str "Budget generation failed: parsed reply is not an object"),
        ("user_id", .str uid)], calls)
  | .error m =>
      ([("error", .str ("Budget generation failed: " ++ m)), ("user_id", .str uid)],
       calls)

/-- `FinancialInsightsAnalyzer.detect_spending_anomalies`
(financial_insights.py:307-374): fetch 30-day and 90-day windows, always
prompt the model, stamp `user_id` and `analysis_date`; exceptions become
`{"error": f"Anomaly detection failed: ...", ...}`. -/
def detect_spending_anomalies (env : InsightsEnv) (uid : String) :
    List (String × Json) × List Call :=
  let calls := [Call.dbFetchExpenses 30, Call.dbFetchExpenses 90, Call.modelInvoke]
  match env.modelReply with
  | .ok (.obj fields) =>
      (setField (setField fields "user_id" (.str uid)) "analysis_date"
        (.str env.nowIso), calls)
  | .ok _ =>
      ([("error", .str "Anomaly detection failed: parsed reply is not an object"),
        ("user_id", .str uid)], calls)
  | .error m =>
      ([("error", .str ("Anomaly detection failed: " ++ m)), ("user_id", .str uid)],
       calls)

/-- `FinancialInsightsAnalyzer.generate_financial_report`
(financial_insights.py:376-425): map the report type to a day window
(default 30), run the three analyses, and assemble the report envelope. -/
def generate_financial_report (env : InsightsEnv) (uid : String) (report_type : String) :
    Json × List Call :=
  let days : ℕ :=
    if report_type = "weekly" then 7
    else if report_type = "monthly" then 30
    else if report_type = "quarterly" then 90
    else 30
  let insights := analyze_comprehensive_insights env uid days
  let budget := generate_smart_budget env uid
  let anomalies := detect_spending_anomalies env uid
  (.obj [
    ("report_metadata", .obj [
      ("user_id", .str uid),
      ("report_type", .str report_type),
      ("period_days", .num days),
      ("generated_at", .str env.nowIso)]),
    ("financial_insights", .obj insights.1),
    ("budget_analysis", .obj budget.1),
    ("anomaly_detection", .obj anomalies.1),
    ("executive_summary", .obj [
      ("overall_financial_health",
        match getField insights.1 "financial_health_score" (.obj []) with
        | .obj hs => getField hs "overall_score" (.num 0)
        | _ => .num 0),
      ("top_3_priorities", .arr [
        .str "Priority extracted from analysis",
        .str "Priority extracted from budget",
        .str "Priority extracted from anomalies"]),
      ("key_achievements", .arr [
        .str "Positive trend identified",
        .str "Good financial behavior noted"])])],
   insights.2 ++ budget.2 ++ anomalies.2)

/-! ## Request handlers (`api/main.py`) -/

/-- `get_user_insights` (main.py:145-159).  The `raise
HTTPException(404, ...)` sits inside the `try`, and the handler's
`except Exception` clause — there is no preceding `except HTTPException:
raise` — catches it (starlette's `HTTPException` subclasses `Exception`)
and re-raises `HTTPException(500, f"Error generating insights: {e}")`,
where `str(e)` of the caught 404 is `"404: <detail>"`. -/
def get_user_insights (insights : List (String × Json)) : Except HttpError Json :=
  let body : Except HttpError Json :=
    if hasField insights "error" then
      .error ⟨404, getField insights "error" .null⟩
    else .ok (.obj insights)
  match body with
  | .ok v => .ok v
  | .error e =>
      .error ⟨500, .str ("Error generating insights: " ++ httpErrStr e)⟩

/-- `get_financial_report` (main.py:193-206): reject report types outside
`{weekly, monthly, quarterly}` with a 400 before entering the `try`
block; otherwise run the report (whose internal failures are all caught
downstream) and return it. -/
def get_financial_report (env : InsightsEnv) (uid : String) (report_type : String) :
    Except HttpError Json × List Call :=
  if (["weekly", "monthly", "quarterly"] : List String).contains report_type then
    let report := generate_financial_report env uid report_type
    (.ok report.1, report.2)
  else
    (.error ⟨400, .str "Invalid report type"⟩, [])

/-! ## Extraction endpoints (`api/main.py`) -/

/-- The `ExpenseItem` pydantic model (main.py:28-33).  Amounts are
rationals (Python floats are not modelled bit-for-bit). -/
structure ExpenseItem where
  bill_no : Option String
  expence_name : String
  amount : ℚ
  category : String
  mode : String
deriving Repr, DecidableEq

/-- JSON values as serialized into HTTP response bodies (these carry
non-integer amounts, so they get their own number constructor and are
never fed back through `json.loads`). -/
inductive RespJson where
  | null : RespJson
  | bool (b : Bool) : RespJson
  | rat (q : ℚ) : RespJson
  | str (s : String) : RespJson
  | arr (elems : List RespJson) : RespJson
  | obj (fields : List (String × RespJson)) : RespJson

/-- FastAPI's serialization of one `ExpenseItem`. -/
def expenseItemJson (e : ExpenseItem) : RespJson :=
  .obj [("bill_no", match e.bill_no with | some s => .str s | none => .null),
        ("expence_name", .str e.expence_name),
        ("amount", .rat e.amount),
        ("category", .str e.category),
        ("mode", .str e.mode)]

/-- The `ExtractionResponse` pydantic model (main.py:35-38): the response
body of both extraction endpoints always carries these three fields. -/
structure ExtractionResponse where
  extracted_data : List ExpenseItem
  saved_to_database : Bool
  user_id : String
deriving Repr, DecidableEq

/-- FastAPI's serialization of an `ExtractionResponse`. -/
def extractionResponseJson (r : ExtractionResponse) : RespJson :=
  .obj [("extracted_data", .arr (r.extracted_data.map expenseItemJson)),
        ("saved_to_database", .bool r.saved_to_database),
        ("user_id", .str r.user_id)]

/-- External outcomes of one extraction request: whether writing the
upload to the temp file succeeded (and whether the file came to exist
during the attempt), the extractor's outcome with the model stubbed, and
the `insert_expenses` result dict for the saving endpoint. -/
structure UploadEnv where
  writeOutcome : Except ExtractErr Unit
  writeCreatesFile : Bool
  extractOutcome : Except ExtractErr (List ExpenseItem)
  insertSuccess : Bool
  insertError : String

/-- What one run of an extraction handler leaves behind: the HTTP
response, whether the temp file still exists after the `finally` block,
and the persistence calls made. -/
structure ExtractRun where
  response : Except HttpError RespJson
  tempExistsAfter : Bool
  dbCalls : List Call

/-- The `finally` block of both extraction handlers (main.py:95-98,
136-139): `if os.path.exists(temp_file): os.remove(temp_file)`. -/
def cleanupTemp (tempOnDisk : Bool) : Bool :=
  if tempOnDisk then false else tempOnDisk

def receiptDetail : String :=
  "The provided image does not appear to be a bill or receipt."

/-- The error translation both extraction endpoints apply to the
extractor's exception (main.py:69-77, 116-124): `InvalidArgument` → 400
invalid-image; `json.JSONDecodeError` → 400 receipt message; any other
exception whose `str(e)` contains `"Failed to parse"` → 400 receipt
message; anything else re-raised and caught by the outer
`except Exception` → 500 `f"Extraction failed: {e}"`. -/
def extractErrToResponse (e : ExtractErr) : HttpError :=
  match e with
  | .invalidArgument m => ⟨400, .str ("Invalid image provided: " ++ m)⟩
  | .jsonDecodeError _ => ⟨400, .str receiptDetail⟩
  | .valueError m =>
      if strContains m "Failed to parse" then ⟨400, .str receiptDetail⟩
      else ⟨500, .str ("Extraction failed: " ++ m)⟩
  | .otherError m =>
      if strContains m "Failed to parse" then ⟨400, .str receiptDetail⟩
      else ⟨500, .str ("Extraction failed: " ++ m)⟩

/-- `extract_expense_only`, `POST /extract` (main.py:101-139): write the
upload to a temp file, run the extractor, answer with the fixed
`saved_to_database = False`, `user_id = "not_specified"` wrapper, never
touching the database; the temp file is removed in `finally`. -/
def extract_expense_only (env : UploadEnv) : ExtractRun :=
  let tempAfter := cleanupTemp env.writeCreatesFile
  match env.writeOutcome with
  | .error e =>
      { response := .error ⟨500, .str ("Extraction failed: " ++ e.msg)⟩,
        tempExistsAfter := tempAfter, dbCalls := [] }
  | .ok _ =>
      match env.extractOutcome with
      | .error e =>
          { response := .error (extractErrToResponse e),
            tempExistsAfter := tempAfter, dbCalls := [] }
      | .ok items =>
          { response := .ok (extractionResponseJson
              { extracted_data := items, saved_to_database := false,
                user_id := "not_specified" }),
            tempExistsAfter := tempAfter, dbCalls := [] }

/-- `extract_and_save_expense`, `POST /extract/{user_id}`
(main.py:54-98): like `extract_expense_only` but on success the expenses
are inserted; a failed insert becomes a 500; the temp file is removed in
`finally` on every path. -/
def extract_and_save_expense (env : UploadEnv) (uid : String) : ExtractRun :=
  let tempAfter := cleanupTemp env.writeCreatesFile
  match env.writeOutcome with
  | .error e =>
      { response := .error ⟨500, .str ("Extraction failed: " ++ e.msg)⟩,
        tempExistsAfter := tempAfter, dbCalls := [] }
  | .ok _ =>
      match env.extractOutcome with
      | .error e =>
          { response := .error (extractErrToResponse e),
            tempExistsAfter := tempAfter, dbCalls := [] }
      | .ok items =>
          if env.insertSuccess then
            { response := .ok (extractionResponseJson
                { extracted_data := items, saved_to_database := true, user_id := uid }),
              tempExistsAfter := tempAfter, dbCalls := [.dbInsertExpenses uid] }
          else
            { response := .error ⟨500,
                .str ("Failed to save to database: " ++ env.insertError)⟩,
              tempExistsAfter := tempAfter, dbCalls := [.dbInsertExpenses uid] }

/-! ## `json.dumps` and `json.loads`
(`save_financial_insights` / `get_latest_insights` serialize through them)

`dumps` follows CPython's defaults: separators `", "` / `": "`,
`ensure_ascii=True` (short escapes for `\\ \" \b \f \n \r \t`, `\uXXXX`
for other control and non-ASCII characters, surrogate pairs beyond the
BMP).  `loads` is a recursive-descent scanner over the characters with a
fuel bound, strict about unescaped control characters, building objects
the way `dict` does (first position, last value on duplicate keys). -/

def lbrace : Char := Char.ofNat 123

def rbrace : Char := Char.ofNat 125

/-- One base-10 digit character. -/
def digitChar (d : ℕ) : Char :=
  if d = 0 then '0' else if d = 1 then '1' else if d = 2 then '2'
  else if d = 3 then '3' else if d = 4 then '4' else if d = 5 then '5'
  else if d = 6 then '6' else if d = 7 then '7' else if d = 8 then '8' else '9'

/-- The decimal digits of a natural number, most significant first
(Python `str(n)` for `n ≥ 0`). -/
def natChars (m : ℕ) : List Char :=
  if h : m < 10 then [digitChar m]
  else natChars (m / 10) ++ [digitChar (m % 10)]
termination_by m
decreasing_by exact Nat.div_lt_self (by omega) (by omega)

/-- Python `str(n)` for an integer. -/
def intChars : Int → List Char
  | .ofNat m => natChars m
  | .negSucc k => '-' :: natChars (k + 1)

/-- One lowercase hex digit character (CPython emits lowercase in
`\uXXXX` escapes). -/
def hexDigChar (d : ℕ) : Char :=
  if d = 0 then '0' else if d = 1 then '1' else if d = 2 then '2'
  else if d = 3 then '3' else if d = 4 then '4' else if d = 5 then '5'
  else if d = 6 then '6' else if d = 7 then '7' else if d = 8 then '8'
  else if d = 9 then '9' else if d = 10 then 'a' else if d = 11 then 'b'
  else if d = 12 then 'c' else if d = 13 then 'd' else if d = 14 then 'e' else 'f'

/-- Four hex digits of `n < 0x10000`. -/
def hex4 (n : ℕ) : List Char :=
  [hexDigChar (n / 4096 % 16), hexDigChar (n / 256 % 16),
   hexDigChar (n / 16 % 16), hexDigChar (n % 16)]

/-- CPython's `py_encode_basestring_ascii` escaping of one character. -/
def escChar (c : Char) : List Char :=
  if c = '\\' then ['\\', '\\']
  else if c = '\"' then ['\\', '\"']
  else if c = Char.ofNat 8 then ['\\', 'b']
  else if c = Char.ofNat 12 then ['\\', 'f']
  else if c = '\n' then ['\\', 'n']
  else if c = Char.ofNat 13 then ['\\', 'r']
  else if c = '\t' then ['\\', 't']
  else if 32 <= c.toNat && c.toNat <= 126 then [c]
  else if c.toNat < 65536 then '\\' :: 'u' :: hex4 c.toNat
  else
    '\\' :: 'u' :: hex4 (55296 + (c.toNat - 65536) / 1024) ++
      ('\\' :: 'u' :: hex4 (56320 + (c.toNat - 65536) % 1024))

def escString : List Char → List Char
  | [] => []
  | c :: cs => escChar c ++ escString cs

mutual

/-- `json.dumps` with CPython's default separators and ASCII escaping. -/
def dumpsVal : Json → List Char
  | .num n => intChars n
  | .null => ['n', 'u', 'l', 'l']
  | .bool b => if b then ['t', 'r', 'u', 'e'] else ['f', 'a', 'l', 's', 'e']
  | .str s => '\"' :: (escString s.data ++ ['\"'])
  | .arr [] => ['[', ']']
  | .arr (x :: xs) => '[' :: (dumpsVal x ++ dumpsArrTail xs ++ [']'])
  | .obj [] => [lbrace, rbrace]
  | .obj ((k, v) :: rest) =>
      lbrace :: ('\"' :: (escString k.data ++ ('\"' :: ':' :: ' ' ::
        (dumpsVal v ++ dumpsObjTail rest ++ [rbrace]))))

def dumpsArrTail : List Json → List Char
  | [] => []
  | x :: xs => ',' :: ' ' :: (dumpsVal x ++ dumpsArrTail xs)

def dumpsObjTail : List (String × Json) → List Char
  | [] => []
  | (k, v) :: rest =>
      ',' :: ' ' :: ('\"' :: (escString k.data ++ ('\"' :: ':' :: ' ' ::
        (dumpsVal v ++ dumpsObjTail rest))))

end

/-- No duplicate keys among an object's fields (a Python dict cannot
carry them). -/
def noDupKeys : List (String × Json) → Bool
  | [] => true
  | (k, _) :: rest => !(hasField rest k) && noDupKeys rest

mutual

/-- The JSON values that correspond to Python dict/list/scalar data:
every object, recursively, has pairwise distinct keys. -/
def pyValid : Json → Bool
  | .arr l => pyValidList l
  | .obj fs => noDupKeys fs && pyValidFields fs
  | _ => true

def pyValidList : List Json → Bool
  | [] => true
  | x :: xs => pyValid x && pyValidList xs

def pyValidFields : List (String × Json) → Bool
  | [] => true
  | (_, v) :: rest => pyValid v && pyValidFields rest

end

mutual

/-- Node-count measure used as the scanner's fuel bound. -/
def fsize : Json → ℕ
  | .arr l => 1 + fsizeList l
  | .obj fs => 1 + fsizeFields fs
  | _ => 1

def fsizeList : List Json → ℕ
  | [] => 0
  | x :: xs => 1 + fsize x + fsizeList xs

def fsizeFields : List (String × Json) → ℕ
  | [] => 0
  | (_, v) :: rest => 1 + fsize v + fsizeFields rest

end

/-- JSON whitespace (space, tab, newline, carriage return). -/
def isWsChar (c : Char) : Bool :=
  c.toNat = 32 || c.toNat = 9 || c.toNat = 10 || c.toNat = 13

def skipWs : List Char → List Char
  | [] => []
  | c :: cs => if isWsChar c then skipWs cs else c :: cs

def isDigitChar (c : Char) : Bool := 48 <= c.toNat && c.toNat <= 57

def digitVal (c : Char) : ℕ := c.toNat - 48

/-- Consume a run of decimal digits, accumulating their value. -/
def parseDigits : List Char → ℕ → ℕ × List Char
  | [], acc => (acc, [])
  | c :: cs, acc =>
      if isDigitChar c then parseDigits cs (acc * 10 + digitVal c) else (acc, c :: cs)

def digitStart : List Char → Bool
  | [] => false
  | c :: _ => isDigitChar c

/-- Scan an integer literal (optional minus, one or more digits). -/
def parseNumber (cs : List Char) : Option (Int × List Char) :=
  match cs with
  | [] => none
  | c :: rest =>
      if c = '-' then
        if digitStart rest then
          let p := parseDigits rest 0
          some (-(p.1 : Int), p.2)
        else none
      else if isDigitChar c then
        let p := parseDigits (c :: rest) 0
        some ((p.1 : Int), p.2)
      else none

def hexVal (c : Char) : Option ℕ :=
  if 48 <= c.toNat && c.toNat <= 57 then some (c.toNat - 48)
  else if 97 <= c.toNat && c.toNat <= 102 then some (c.toNat - 87)
  else if 65 <= c.toNat && c.toNat <= 70 then some (c.toNat - 55)
  else none

def hexVal4 (a b c d : Char) : Option ℕ :=
  match hexVal a, hexVal b, hexVal c, hexVal d with
  | some x, some y, some z, some w => some (((x * 16 + y) * 16 + z) * 16 + w)
  | _, _, _, _ => none

def mkChar (n : ℕ) : Option Char :=
  if h : Nat.isValidChar n then some (Char.ofNat n) else none

/-- Decode one short escape (after a backslash). -/
def escDecode (e : Char) : Option Char :=
  if e = '\"' then some '\"'
  else if e = '\\' then some '\\'
  else if e = '/' then some '/'
  else if e = 'b' then some (Char.ofNat 8)
  else if e = 'f' then some (Char.ofNat 12)
  else if e = 'n' then some '\n'
  else if e = 'r' then some (Char.ofNat 13)
  else if e = 't' then some '\t'
  else none

/-- Scan four hex digits. -/
def hexQuad : List Char → Option (ℕ × List Char)
  | a :: b :: c :: d :: rest =>
      (match hexVal4 a b c d with
       | none => none
       | some n => some (n, rest))
  | _ => none

/-- Decode one escape sequence (after the backslash): a short escape, a
`\uXXXX`, or a surrogate pair; a lone surrogate is rejected. -/
def decodeEsc : List Char → Option (Char × List Char)
  | [] => none
  | e :: rest =>
      if e = 'u' then
        match hexQuad rest with
        | none => none
        | some (n, rest3) =>
            if 55296 ≤ n && n ≤ 56319 then
              match rest3 with
              | b1 :: b2 :: rest3b =>
                  if b1 = '\\' && b2 = 'u' then
                    match hexQuad rest3b with
                    | none => none
                    | some (n2, rest4) =>
                        if 56320 ≤ n2 && n2 ≤ 57343 then
                          match mkChar (65536 + (n - 55296) * 1024 + (n2 - 56320)) with
                          | none => none
                          | some ch => some (ch, rest4)
                        else none
                  else none
              | _ => none
            else if 56320 ≤ n && n ≤ 57343 then none
            else
              match mkChar n with
              | none => none
              | some ch => some (ch, rest3)
      else
        match escDecode e with
        | none => none
        | some ch => some (ch, rest)

/-- The string-body scanning loop: each produced character costs one unit
of fuel and consumes at least one input character. -/
def parseStrLoop : ℕ → List Char → Option (List Char × List Char)
  | 0, _ => none
  | n + 1, cs =>
      match cs with
      | [] => none
      | c :: rest =>
          if c = '\"' then some ([], rest)
          else if c = '\\' then
            match decodeEsc rest with
            | none => none
            | some (ch, rest2) => (parseStrLoop n rest2).map (fun p => (ch :: p.1, p.2))
          else if c.toNat < 32 then none
          else (parseStrLoop n rest).map (fun p => (c :: p.1, p.2))

/-- Scan a string body up to the closing quote, decoding escapes and
joining surrogate pairs; unescaped control characters are rejected
(`strict=True`). -/
def parseStrBody (cs : List Char) : Option (List Char × List Char) :=
  parseStrLoop cs.length cs

/-- Build an object's fields from scanned pairs the way `dict` does:
existing key keeps its position and takes the new value, new keys append
(`setField` is exactly dict assignment). -/
def dictFold (pairs : List (String × Json)) : List (String × Json) :=
  pairs.foldl (fun acc p => setField acc p.1 p.2) []

mutual

/-- Scan one JSON value (fuel-bounded recursive descent). -/
def parseVal : ℕ → List Char → Option (Json × List Char)
  | 0, _ => none
  | n + 1, cs =>
      match skipWs cs with
      | [] => none
      | c :: rest =>
          if c = 'n' then
            match rest with
            | 'u' :: 'l' :: 'l' :: r => some (.null, r)
            | _ => none
          else if c = 't' then
            match rest with
            | 'r' :: 'u' :: 'e' :: r => some (.bool true, r)
            | _ => none
          else if c = 'f' then
            match rest with
            | 'a' :: 'l' :: 's' :: 'e' :: r => some (.bool false, r)
            | _ => none
          else if c = '\"' then
            match parseStrBody rest with
            | none => none
            | some (chars, r) => some (.str (String.mk chars), r)
          else if c = '[' then
            match skipWs rest with
            | [] => none
            | c2 :: r2 =>
                if c2 = ']' then some (.arr [], r2)
                else
                  match parseElems n (c2 :: r2) with
                  | none => none
                  | some (l, r) => some (.arr l, r)
          else if c = lbrace then
            match skipWs rest with
            | [] => none
            | c2 :: r2 =>
                if c2 = rbrace then some (.obj [], r2)
                else
                  match parseFields n (c2 :: r2) with
                  | none => none
                  | some (fs, r) => some (.obj (dictFold fs), r)
          else
            match parseNumber (c :: rest) with
            | none => none
            | some (v, r) => some (.num v, r)

/-- Scan the elements of a nonempty array, consuming the closing `]`. -/
def parseElems : ℕ → List Char → Option (List Json × List Char)
  | 0, _ => none
  | n + 1, cs =>
      match parseVal n cs with
      | none => none
      | some (v, r) =>
          match skipWs r with
          | [] => none
          | c2 :: r2 =>
              if c2 = ',' then
                match parseElems n r2 with
                | none => none
                | some (vs, r3) => some (v :: vs, r3)
              else if c2 = ']' then some ([v], r2)
              else none

/-- Scan the fields of a nonempty object, consuming the closing brace. -/
def parseFields : ℕ → List Char → Option (List (String × Json) × List Char)
  | 0, _ => none
  | n + 1, cs =>
      match skipWs cs with
      | c :: r =>
          if c = '\"' then
            match parseStrBody r with
            | none => none
            | some (kchars, r2) =>
                match skipWs r2 with
                | [] => none
                | c3 :: r3 =>
                    if c3 = ':' then
                      match parseVal n r3 with
                      | none => none
                      | some (v, r4) =>
                          match skipWs r4 with
                          | [] => none
                          | c5 :: r5 =>
                              if c5 = ',' then
                                match parseFields n r5 with
                                | none => none
                                | some (fs, r6) =>
                                    some ((String.mk kchars, v) :: fs, r6)
                              else if c5 = rbrace then
                                some ([(String.mk kchars, v)], r5)
                              else none
                    else none
          else none
      | [] => none

end

/-- Python `json.dumps` as a string. -/
def dumps (j : Json) : String := String.mk (dumpsVal j)

/-- Python `json.loads`: scan one value, require only whitespace after it. -/
def loads (s : String) : Option Json :=
  match parseVal (s.data.length + 1) s.data with
  | none => none
  | some (j, rest) => if skipWs rest = [] then some j else none

/-! ## The insights log (`save_financial_insights` / `get_latest_insights`) -/

mutual

/-- Structural equality of JSON values (the store's `eq` filter on the
`insights_type` column). -/
def jsonEq : Json → Json → Bool
  | .null, .null => true
  | .bool a, .bool b => a == b
  | .num a, .num b => a == b
  | .str a, .str b => a == b
  | .arr a, .arr b => jsonEqList a b
  | .obj a, .obj b => jsonEqFields a b
  | _, _ => false

def jsonEqList : List Json → List Json → Bool
  | [], [] => true
  | a :: as0, b :: bs => jsonEq a b && jsonEqList as0 bs
  | _, _ => false

def jsonEqFields : List (String × Json) → List (String × Json) → Bool
  | [], [] => true
  | (ka, va) :: as0, (kb, vb) :: bs => ka == kb && jsonEq va vb && jsonEqFields as0 bs
  | _, _ => false

end

/-- One row of the `financial_insights` table: `insights_data` is the
serialized JSON string column. -/
structure InsightsRow where
  user_id : String
  insights_data : String
  generated_date : ℕ
  insights_type : Json

/-- Result dict of `save_financial_insights`. -/
structure SaveResult where
  success : Bool
deriving Repr, DecidableEq

/-- `SupabaseClient.save_financial_insights` (supabase_client.py:199-231):
serialize `insights_data` with `json.dumps`, derive `insights_type` from
`insights_data.get("response_metadata", {}).get("intent", "general")`
(an `AttributeError` from a non-dict lands in the `except` branch with
nothing inserted), stamp `generated_date`, and append the row. -/
def save_financial_insights (store : List InsightsRow) (uid : String) (d : Json)
    (now : ℕ) : SaveResult × List InsightsRow :=
  match d with
  | .obj fs =>
      match getField fs "response_metadata" (.obj []) with
      | .obj mf =>
          (⟨true⟩,
           store ++
             [{ user_id := uid, insights_data := dumps d, generated_date := now,
                insights_type := getField mf "intent" (.str "general") }])
      | _ => (⟨false⟩, store)
  | _ => (⟨false⟩, store)

/-- `order("generated_date", desc=True).limit(1)`: a row of maximal
`generated_date` (the earliest such row when tied — the store's tie order
is not observable through the claims proved here). -/
def pickLatest : List InsightsRow → Option InsightsRow
  | [] => none
  | r :: rest =>
      match pickLatest rest with
      | none => some r
      | some b => if b.generated_date > r.generated_date then some b else some r

/-- The dict `get_latest_insights` answers with: the row with its
`insights_data` column replaced by the `json.loads` of its contents. -/
structure LatestInsights where
  user_id : String
  insights_data : Json
  generated_date : ℕ
  insights_type : Json

/-- `SupabaseClient.get_latest_insights` (supabase_client.py:233-263):
filter the user's rows (and the `insights_type` when given), take the
newest by `generated_date`, parse its `insights_data` in place; no rows —
or a `json.loads` failure caught by the `except` — yields `{}`. -/
def get_latest_insights (store : List InsightsRow) (uid : String)
    (itype : Option Json) : Option LatestInsights :=
  let rows := store.filter (fun r => r.user_id = uid)
  let rows := match itype with
    | some t => rows.filter (fun r => jsonEq r.insights_type t)
    | none => rows
  match pickLatest rows with
  | none => none
  | some row =>
      match loads row.insights_data with
      | none => none
      | some j =>
          some { user_id := row.user_id, insights_data := j,
                 generated_date := row.generated_date,
                 insights_type := row.insights_type }

/-- The row `save_financial_insights` appends for a successful save. -/
def savedInsightsRow (uid : String) (d : Json) (now : ℕ) (intent : Json) :
    InsightsRow :=
  { user_id := uid, insights_data := dumps d, generated_date := now,
    insights_type := intent }

/-- The fixture expense of the end-to-end extraction scenario:
`{"bill_no":"123","expence_name":"Coffee","amount":4.5,"category":"Food","mode":"card"}`. -/
def coffeeItem : ExpenseItem :=
  { bill_no := some "123", expence_name := "Coffee", amount := (9 : ℚ)/2,
    category := "Food", mode := "card" }

/-- A fixture upload environment whose extractor is stubbed to succeed
with `[coffeeItem]`. -/
def coffeeUploadEnv : UploadEnv :=
  { writeOutcome := .ok (), writeCreatesFile := true,
    extractOutcome := .ok [coffeeItem], insertSuccess := true, insertError := "" }

/-! ## Theorems -/

/-- **C8.** `fetch_user_expenses` never raises: a backend exception yields
the empty list; a successful query yields the backend's records, the empty
list when the backend returns no data. -/
theorem fetch_user_expenses_total_on_error (b : ExpBackend) :
    (∀ msg, b = .raised msg → fetch_user_expenses b = []) ∧
    (b = .ok none → fetch_user_expenses b = []) ∧
    (∀ l, b = .ok (some l) → fetch_user_expenses b = l) := by
  refine ⟨fun msg h => by subst h; rfl, fun h => by subst h; rfl, fun l h => ?_⟩
  subst h
  by_cases hl : l = []
  · subst hl; rfl
  · simp [fetch_user_expenses, hl]

/-- Witness for C8 at a concrete backend outcome. -/
theorem fetch_user_expenses_total_on_error_witness :
    fetch_user_expenses (.raised "timeout") = [] ∧
    fetch_user_expenses (.ok none) = [] ∧
    fetch_user_expenses (.ok (some [])) = [] :=
  ⟨(fetch_user_expenses_total_on_error (.raised "timeout")).1 "timeout" rfl,
   (fetch_user_expenses_total_on_error (.ok none)).2.1 rfl,
   (fetch_user_expenses_total_on_error (.ok (some []))).2.2 [] rfl⟩

theorem map_update_of_no_match (l : List ProfileRow) (uid : String) (d : ProfileData)
    (now : ℕ) (h : ∀ r ∈ l, r.user_id ≠ uid) :
    l.map (fun r => if r.user_id = uid then { r with data := d, updated_date := now }
                    else r) = l := by
  induction l with
  | nil => rfl
  | cons x xs ih =>
      simp only [List.map_cons, if_neg (h x (List.mem_cons_self x xs)), List.cons.injEq,
        true_and]
      exact ih (fun r hr => h r (List.mem_cons_of_mem x hr))

/-- **C6.** Two successive `upsert_user_profile` calls for a fresh `user_id`
leave exactly one stored profile: the first takes the insert path stamping
`created_date` and `updated_date` with its clock, the second takes the
update path restamping only `updated_date` and preserving `created_date`,
and both report success. -/
theorem upsert_user_profile_twice_unique (store : List ProfileRow) (uid : String)
    (d1 d2 : ProfileData) (t1 t2 : ℕ)
    (hnew : store.filter (fun r => r.user_id = uid) = []) :
    (upsert_user_profile store uid d1 t1).2.filter (fun r => r.user_id = uid) =
      [{ user_id := uid, data := d1, created_date := some t1, updated_date := t1 }] ∧
    ((upsert_user_profile (upsert_user_profile store uid d1 t1).2 uid d2 t2).2.filter
        (fun r => r.user_id = uid) =
      [{ user_id := uid, data := d2, created_date := some t1, updated_date := t2 }]) ∧
    (upsert_user_profile store uid d1 t1).1.success = true ∧
    (upsert_user_profile (upsert_user_profile store uid d1 t1).2 uid d2 t2).1.success
      = true := by
  have hmem : ∀ r ∈ store, ¬(r.user_id = uid) := by
    intro r hr
    intro hru
    have : r ∈ store.filter (fun r => r.user_id = uid) :=
      List.mem_filter.mpr ⟨hr, by simp [hru]⟩
    rw [hnew] at this
    exact absurd this (List.not_mem_nil r)
  have hfetch1 : fetch_user_profile store uid = none := by
    unfold fetch_user_profile
    rw [hnew]
    rfl
  have h1 : upsert_user_profile store uid d1 t1 =
      (⟨true⟩, store ++ [{ user_id := uid, data := d1, created_date := some t1,
                           updated_date := t1 }]) := by
    unfold upsert_user_profile
    rw [hfetch1]
  have h1s : (upsert_user_profile store uid d1 t1).2 =
      store ++ [{ user_id := uid, data := d1, created_date := some t1,
                  updated_date := t1 }] := by rw [h1]
  have hfilter1 : (upsert_user_profile store uid d1 t1).2.filter
      (fun r => r.user_id = uid) =
      [{ user_id := uid, data := d1, created_date := some t1, updated_date := t1 }] := by
    rw [h1s]
    simp only [List.filter_append, hnew, List.nil_append]
    simp
  have hfetch2 : fetch_user_profile
      (store ++ [{ user_id := uid, data := d1, created_date := some t1,
                   updated_date := t1 }]) uid =
      some { user_id := uid, data := d1, created_date := some t1, updated_date := t1 } := by
    unfold fetch_user_profile
    simp only [List.filter_append, hnew, List.nil_append]
    simp
  refine ⟨hfilter1, ?_, by rw [h1], ?_⟩
  · rw [h1s]
    unfold upsert_user_profile
    rw [hfetch2]
    simp only [List.map_append]
    rw [map_update_of_no_match store uid d2 t2 hmem]
    simp only [List.filter_append, hnew, List.nil_append, List.map_cons, List.map_nil]
    simp
  · rw [h1s]
    unfold upsert_user_profile
    rw [hfetch2]

/-- Witness for C6: an empty fixture store, a fresh user, two concrete payloads. -/
theorem upsert_user_profile_twice_unique_witness :
    (upsert_user_profile [] "u1" ⟨1000, 200, 50, 0, "house"⟩ 10).2.filter
        (fun r => r.user_id = "u1") =
      [{ user_id := "u1", data := ⟨1000, 200, 50, 0, "house"⟩, created_date := some 10,
         updated_date := 10 }] ∧
    ((upsert_user_profile
        (upsert_user_profile [] "u1" ⟨1000, 200, 50, 0, "house"⟩ 10).2 "u1"
        ⟨1200, 300, 80, 5, "car"⟩ 11).2.filter (fun r => r.user_id = "u1") =
      [{ user_id := "u1", data := ⟨1200, 300, 80, 5, "car"⟩, created_date := some 10,
         updated_date := 11 }]) ∧
    (upsert_user_profile [] "u1" ⟨1000, 200, 50, 0, "house"⟩ 10).1.success = true ∧
    (upsert_user_profile
        (upsert_user_profile [] "u1" ⟨1000, 200, 50, 0, "house"⟩ 10).2 "u1"
        ⟨1200, 300, 80, 5, "car"⟩ 11).1.success = true :=
  upsert_user_profile_twice_unique [] "u1" ⟨1000, 200, 50, 0, "house"⟩
    ⟨1200, 300, 80, 5, "car"⟩ 10 11 rfl

theorem pySum_eq_sum (l : List ℚ) : pySum l = l.sum := by
  have h : ∀ (acc : ℚ), l.foldl (· + ·) acc = acc + l.sum := by
    induction l with
    | nil => intro acc; simp
    | cons x xs ih => intro acc; simp [List.foldl_cons, ih, add_assoc]
  simpa [pySum] using h 0

/-- **C2.** `get_expense_summary` is consistent with `fetch_user_expenses`:
its total is the sum of the fetched amounts, its count the number of
fetched records, and on an empty fetch it is exactly
`{total: 0, count: 0, categories: {}}` (no `period_days` key). -/
theorem get_expense_summary_consistent (b : ExpBackend) (days : ℕ) :
    (get_expense_summary b days).total? =
        some (((fetch_user_expenses b).map (·.amount)).sum) ∧
    (get_expense_summary b days).count? = some (fetch_user_expenses b).length ∧
    (fetch_user_expenses b = [] →
      get_expense_summary b days = .summary 0 0 [] none) := by
  by_cases h : fetch_user_expenses b = []
  · refine ⟨?_, ?_, fun _ => ?_⟩ <;>
      simp [get_expense_summary, h, SummaryResult.total?, SummaryResult.count?]
  · refine ⟨?_, ?_, fun hc => absurd hc h⟩ <;>
      simp [get_expense_summary, h, SummaryResult.total?, SummaryResult.count?,
        pySum_eq_sum]

/-- Witness for C2 at a concrete two-row backend. -/
theorem get_expense_summary_consistent_witness :
    (get_expense_summary (.ok (some
      [{ user_id := "u1", bill_no := none, expence_name := "Coffee", amount := (9 : ℚ)/2,
         category := "Food", mode := "card", created_date := 5 },
       { user_id := "u1", bill_no := some "7", expence_name := "Bus", amount := 2,
         category := "Transport", mode := "cash", created_date := 6 }])) 30).total? =
      some ((9 : ℚ)/2 + 2) ∧
    (get_expense_summary (.ok none) 30) = .summary 0 0 [] none := by
  constructor
  · have h := (get_expense_summary_consistent (.ok (some
      [{ user_id := "u1", bill_no := none, expence_name := "Coffee", amount := (9 : ℚ)/2,
         category := "Food", mode := "card", created_date := 5 },
       { user_id := "u1", bill_no := some "7", expence_name := "Bus", amount := 2,
         category := "Transport", mode := "cash", created_date := 6 }])) 30).1
    rw [h]
    simp [fetch_user_expenses]
  · exact (get_expense_summary_consistent (.ok none) 30).2.2 rfl

/-- **C1** (code bug): at the analyzer's no-data result for a user with no
expense rows, the `/insights/{user_id}` handler responds 500 — its
`except Exception` clause catches the just-raised 404 `HTTPException`
(there is no `except HTTPException: raise` in this handler) and wraps it
into `HTTPException(500, f"Error generating insights: {e}")`. -/
theorem get_user_insights_500_on_no_data :
    (analyze_comprehensive_insights
        { expensesFor := fun _ => [], profile := [], modelReply := .error "unused",
          nowIso := "2025-01-01T00:00:00" } "u1" 30).1 =
      [("error", .str "No expense data found for user"), ("user_id", .str "u1")] ∧
    get_user_insights
        (analyze_comprehensive_insights
          { expensesFor := fun _ => [], profile := [], modelReply := .error "unused",
            nowIso := "2025-01-01T00:00:00" } "u1" 30).1 =
      .error ⟨500,
        .str "Error generating insights: 404: No expense data found for user"⟩ :=
  ⟨rfl, rfl⟩

/-- **C5.** A report type outside `{weekly, monthly, quarterly}` is
rejected with a 400 `"Invalid report type"` before any analysis: the call
trace is empty — no model invocation, no database access. -/
theorem get_financial_report_400_before_analysis (env : InsightsEnv) (uid rt : String)
    (h : (["weekly", "monthly", "quarterly"] : List String).contains rt = false) :
    get_financial_report env uid rt = (.error ⟨400, .str "Invalid report type"⟩, []) := by
  have h3 : ¬(rt = "weekly") ∧ ¬(rt = "monthly") ∧ ¬(rt = "quarterly") := by
    simpa using h
  simp [get_financial_report, h3.1, h3.2.1, h3.2.2]

/-- Witness for C5 at the concrete report type `"yearly"`. -/
theorem get_financial_report_400_before_analysis_witness :
    get_financial_report
      { expensesFor := fun _ => [], profile := [], modelReply := .error "m",
        nowIso := "t" } "u1" "yearly" =
      (.error ⟨400, .str "Invalid report type"⟩, []) :=
  get_financial_report_400_before_analysis _ "u1" "yearly" (by decide)

/-- **C9.** An explicitly supplied `input_type` that is neither `"image"`
nor `"pdf"` makes `extract_expense` fail with the unsupported-input-type
`ValueError` before anything else: no model invocation appears in the
trace. -/
theorem extract_expense_unsupported_type (env : OcrEnv) (input : OcrInput) (t : String)
    (h1 : t ≠ "image") (h2 : t ≠ "pdf") :
    extract_expense env input (some t) =
      (.error (.valueError "Invalid input_type. Use \x27image\x27 or \x27pdf\x27."),
       []) := by
  simp [extract_expense, h1, h2]

/-- Witness for C9 at the concrete input type `"audio"`. -/
theorem extract_expense_unsupported_type_witness :
    extract_expense
      { imageB64 := .ok "b64", pdfText := .ok "txt", modelContent := .ok "reply",
        parseContent := fun _ => .ok (.obj []) } .rawImage (some "audio") =
      (.error (.valueError "Invalid input_type. Use \x27image\x27 or \x27pdf\x27."),
       []) :=
  extract_expense_unsupported_type _ .rawImage "audio" (by decide) (by decide)

/-- **C7.** After either extraction handler completes — returning a
response or translating an exception from any pipeline stage — the
`finally` block has removed the temp file: it no longer exists. -/
theorem extraction_temp_file_removed (env : UploadEnv) (uid : String) :
    (extract_expense_only env).tempExistsAfter = false ∧
    (extract_and_save_expense env uid).tempExistsAfter = false := by
  constructor <;>
  · rcases env with ⟨w, c, ex, is, ie⟩
    cases w <;> cases ex <;> cases is <;> cases c <;> rfl

/-- **C3** (counterexample to the exact-wrapper part): with the extractor
stubbed to a concrete one-expense array, `POST /extract` answers with the
three-field `ExtractionResponse` body — `extracted_data` plus
`saved_to_database: false` and `user_id: "not_specified"` — which differs
from the bare `{"extracted_data": [...]}` wrapper the claim demands. -/
theorem extract_only_response_not_bare_wrapper :
    (extract_expense_only coffeeUploadEnv).response ≠
      .ok (.obj [("extracted_data", .arr [expenseItemJson coffeeItem])]) := by
  intro h
  have h1 : extractionResponseJson
      { extracted_data := [coffeeItem], saved_to_database := false,
        user_id := "not_specified" } =
      .obj [("extracted_data", .arr [expenseItemJson coffeeItem])] := by
    injection h
  have h2 := congrArg
    (fun j => match j with | RespJson.obj l => l.length | _ => 0) h1
  simp [extractionResponseJson] at h2

/-- **C3** (amended): on a successful stubbed extraction `POST /extract`
returns the given array wrapped with the two fixed fields
`saved_to_database: false` and `user_id: "not_specified"` demanded by the
`ExtractionResponse` model, and performs no persistence write. -/
theorem extract_only_wrapper_and_no_insert (env : UploadEnv) (items : List ExpenseItem)
    (hw : env.writeOutcome = .ok ()) (he : env.extractOutcome = .ok items) :
    (extract_expense_only env).response =
      .ok (.obj [("extracted_data", .arr (items.map expenseItemJson)),
                 ("saved_to_database", .bool false),
                 ("user_id", .str "not_specified")]) ∧
    (extract_expense_only env).dbCalls = [] := by
  rcases env with ⟨w, c, ex, is, ie⟩
  dsimp only at hw he
  subst hw
  subst he
  exact ⟨rfl, rfl⟩

/-- Witness for the amended C3 at a concrete upload environment. -/
theorem extract_only_wrapper_and_no_insert_witness :
    (extract_expense_only coffeeUploadEnv).response =
      .ok (.obj [("extracted_data", .arr ([coffeeItem].map expenseItemJson)),
                 ("saved_to_database", .bool false),
                 ("user_id", .str "not_specified")]) ∧
    (extract_expense_only coffeeUploadEnv).dbCalls = [] :=
  extract_only_wrapper_and_no_insert coffeeUploadEnv [coffeeItem] rfl rfl

/-- **C4** (counterexample to the receipt-message part): an
`InvalidArgument` from the model client whose message contains
`"Failed to parse"` is caught by the earlier `except
exceptions.InvalidArgument` clause and yields 400 with the invalid-image
message, not the receipt-specific message the claim demands for every
such exception. -/
theorem extraction_invalid_argument_message_differs :
    strContains "Failed to parse the provided data" "Failed to parse" = true ∧
    (extract_expense_only
      { writeOutcome := .ok (), writeCreatesFile := true,
        extractOutcome := .error (.invalidArgument "Failed to parse the provided data"),
        insertSuccess := true, insertError := "" }).response =
      .error ⟨400, .str "Invalid image provided: Failed to parse the provided data"⟩ ∧
    "Invalid image provided: Failed to parse the provided data" ≠ receiptDetail :=
  ⟨by decide, rfl, by decide⟩

/-- **C4** (amended): a `json.JSONDecodeError`, or any non-`InvalidArgument`
exception whose message contains `"Failed to parse"`, makes both
extraction endpoints answer 400 with the receipt-specific message — never
a 500 (an `InvalidArgument` whose message contains the substring also
gets a 400, but with the invalid-image message). -/
theorem extraction_parse_failure_maps_to_400 (env : UploadEnv) (uid m : String)
    (hw : env.writeOutcome = .ok ())
    (he : env.extractOutcome = .error (.jsonDecodeError m) ∨
          ((env.extractOutcome = .error (.valueError m) ∨
            env.extractOutcome = .error (.otherError m)) ∧
           strContains m "Failed to parse" = true)) :
    (extract_expense_only env).response = .error ⟨400, .str receiptDetail⟩ ∧
    (extract_and_save_expense env uid).response = .error ⟨400, .str receiptDetail⟩ := by
  rcases env with ⟨w, c, ex, is, ie⟩
  dsimp only at hw he
  subst hw
  rcases he with h | ⟨hor, hc⟩
  · subst h
    exact ⟨rfl, rfl⟩
  · rcases hor with h | h <;> subst h <;>
      exact ⟨by simp [extract_expense_only, extractErrToResponse, hc],
             by simp [extract_and_save_expense, extractErrToResponse, hc]⟩

/-- Witness for the amended C4 at a concrete `JSONDecodeError`. -/
theorem extraction_parse_failure_maps_to_400_witness :
    (extract_expense_only
      { writeOutcome := .ok (), writeCreatesFile := true,
        extractOutcome := .error (.jsonDecodeError "Expecting value: line 1 column 1"),
        insertSuccess := true, insertError := "" }).response =
      .error ⟨400, .str receiptDetail⟩ ∧
    (extract_and_save_expense
      { writeOutcome := .ok (), writeCreatesFile := true,
        extractOutcome := .error (.jsonDecodeError "Expecting value: line 1 column 1"),
        insertSuccess := true, insertError := "" } "u1").response =
      .error ⟨400, .str receiptDetail⟩ :=
  extraction_parse_failure_maps_to_400 _ "u1" "Expecting value: line 1 column 1" rfl
    (Or.inl rfl)

/-! ### Round trip of the scanner against `dumps`: numbers -/

theorem char_ne_of_toNat_ne {c d : Char} (h : c.toNat ≠ d.toNat) : c ≠ d :=
  fun he => h (congrArg Char.toNat he)

theorem skipWs_not_ws {c : Char} (cs : List Char) (h : isWsChar c = false) :
    skipWs (c :: cs) = c :: cs := by
  simp [skipWs, h]

theorem digitChar_isDigit {d : ℕ} (h : d < 10) : isDigitChar (digitChar d) = true := by
  interval_cases d <;> decide

theorem digitChar_val {d : ℕ} (h : d < 10) : digitVal (digitChar d) = d := by
  interval_cases d <;> decide

theorem natChars_head (m : ℕ) : ∃ c t, natChars m = c :: t ∧ isDigitChar c = true := by
  induction m using Nat.strong_induction_on with
  | _ m ih =>
    by_cases h : m < 10
    · exact ⟨digitChar m, [], by rw [natChars, dif_pos h], digitChar_isDigit h⟩
    · obtain ⟨c, t, hct, hd⟩ := ih (m / 10) (Nat.div_lt_self (by omega) (by omega))
      exact ⟨c, t ++ [digitChar (m % 10)],
        by rw [natChars, dif_neg h, hct]; simp, hd⟩

theorem parseDigits_nonDigit {cs : List Char} (acc : ℕ) (h : digitStart cs = false) :
    parseDigits cs acc = (acc, cs) := by
  cases cs with
  | nil => rfl
  | cons c t =>
      simp only [digitStart] at h
      simp [parseDigits, h]

theorem parseDigits_natChars (m : ℕ) : ∀ acc rest,
    parseDigits (natChars m ++ rest) acc =
      parseDigits rest (acc * 10 ^ (natChars m).length + m) := by
  induction m using Nat.strong_induction_on with
  | _ m ih =>
    intro acc rest
    by_cases h : m < 10
    · rw [natChars, dif_pos h]
      simp [parseDigits, digitChar_isDigit h, digitChar_val h]
    · have hrec : natChars m = natChars (m / 10) ++ [digitChar (m % 10)] := by
        rw [natChars, dif_neg h]
      have hlen : (natChars m).length = (natChars (m / 10)).length + 1 := by
        rw [hrec]; simp
      rw [hrec, List.append_assoc,
        ih (m / 10) (Nat.div_lt_self (by omega) (by omega)) acc
          ([digitChar (m % 10)] ++ rest)]
      have h10 : m % 10 < 10 := Nat.mod_lt m (by omega)
      simp only [List.singleton_append]
      rw [show parseDigits (digitChar (m % 10) :: rest)
            (acc * 10 ^ (natChars (m / 10)).length + m / 10) =
          parseDigits rest
            ((acc * 10 ^ (natChars (m / 10)).length + m / 10) * 10 + m % 10) by
        simp [parseDigits, digitChar_isDigit h10, digitChar_val h10]]
      congr 1
      have hlen2 : (natChars (m / 10) ++ [digitChar (m % 10)]).length =
          (natChars (m / 10)).length + 1 := by simp
      rw [hlen2, pow_succ]
      have hm := Nat.div_add_mod m 10
      ring_nf
      omega

theorem isDigitChar_not_ws {c : Char} (h : isDigitChar c = true) : isWsChar c = false := by
  simp only [isDigitChar, Bool.and_eq_true, decide_eq_true_eq] at h
  simp only [isWsChar, Bool.or_eq_false_iff, decide_eq_false_iff_not]
  omega

theorem parseNumber_intChars (n : Int) (rest : List Char) (h : digitStart rest = false) :
    parseNumber (intChars n ++ rest) = some (n, rest) := by
  cases n with
  | ofNat m =>
      obtain ⟨c, t, hct, hd⟩ := natChars_head m
      have hnat : intChars (.ofNat m) ++ rest = c :: (t ++ rest) := by
        simp [intChars, hct]
      rw [hnat]
      have hc45 : ¬(c = '-') := by
        apply char_ne_of_toNat_ne
        simp only [isDigitChar, Bool.and_eq_true, decide_eq_true_eq] at hd
        have : ('-').toNat = 45 := by decide
        omega
      simp only [parseNumber, if_neg hc45, hd, if_true]
      have hback : c :: (t ++ rest) = natChars m ++ rest := by
        rw [hct]; simp
      rw [hback, parseDigits_natChars, parseDigits_nonDigit _ h]
      simp
  | negSucc k =>
      have hneg : intChars (.negSucc k) ++ rest = '-' :: (natChars (k + 1) ++ rest) := by
        simp [intChars]
      rw [hneg]
      obtain ⟨c, t, hct, hd⟩ := natChars_head (k + 1)
      have hds : digitStart (natChars (k + 1) ++ rest) = true := by
        rw [hct]; simp [digitStart, hd]
      simp only [parseNumber, hds, if_pos, if_true]
      rw [parseDigits_natChars, parseDigits_nonDigit _ h]
      simp only [Option.some.injEq, Prod.mk.injEq]
      refine ⟨?_, trivial⟩
      simp only [Int.negSucc_eq]
      push_cast
      ring

/-! ### Round trip of the scanner against `dumps`: strings -/

theorem hexVal_hexDigChar {d : ℕ} (h : d < 16) : hexVal (hexDigChar d) = some d := by
  interval_cases d <;> decide

theorem char_valid_nat (c : Char) : Nat.isValidChar c.toNat := by
  have h := c.valid
  unfold UInt32.isValidChar at h
  exact h

theorem char_toNat_lt (c : Char) : c.toNat < 1114112 := by
  rcases char_valid_nat c with h | ⟨_, h⟩ <;> omega

theorem mkChar_toNat (c : Char) : mkChar c.toNat = some c := by
  unfold mkChar
  rw [dif_pos (char_valid_nat c), Char.ofNat_toNat]

theorem hexVal4_hex4 {n : ℕ} (h : n < 65536) :
    hexVal4 (hexDigChar (n / 4096 % 16)) (hexDigChar (n / 256 % 16))
      (hexDigChar (n / 16 % 16)) (hexDigChar (n % 16)) = some n := by
  have h1 : n / 4096 % 16 < 16 := Nat.mod_lt _ (by norm_num)
  have h2 : n / 256 % 16 < 16 := Nat.mod_lt _ (by norm_num)
  have h3 : n / 16 % 16 < 16 := Nat.mod_lt _ (by norm_num)
  have h4 : n % 16 < 16 := Nat.mod_lt _ (by norm_num)
  rw [hexVal4, hexVal_hexDigChar h1, hexVal_hexDigChar h2, hexVal_hexDigChar h3,
    hexVal_hexDigChar h4]
  simp only [Option.some.injEq]
  omega


theorem hexQuad_hex4 {n : ℕ} (h : n < 65536) (tail : List Char) :
    hexQuad (hex4 n ++ tail) = some (n, tail) := by
  rw [show hex4 n ++ tail = hexDigChar (n / 4096 % 16) :: hexDigChar (n / 256 % 16) ::
      hexDigChar (n / 16 % 16) :: hexDigChar (n % 16) :: tail from by simp [hex4]]
  simp [hexQuad, hexVal4_hex4 h]

theorem decodeEsc_short (e c : Char) (cs : List Char)
    (he : escDecode e = some c) (hne : ¬(e = 'u')) :
    decodeEsc (e :: cs) = some (c, cs) := by
  simp [decodeEsc, hne, he]

theorem decodeEsc_u (c : Char) (cs : List Char) (h : c.toNat < 65536) :
    decodeEsc ('u' :: (hex4 c.toNat ++ cs)) = some (c, cs) := by
  have hv := char_valid_nat c
  have hs1 : (55296 ≤ c.toNat && c.toNat ≤ 56319) = false := by
    simp only [Bool.and_eq_false_iff, decide_eq_false_iff_not]
    rcases hv with hlt | ⟨hgt, _⟩
    · left; omega
    · right; omega
  have hs2 : (56320 ≤ c.toNat && c.toNat ≤ 57343) = false := by
    simp only [Bool.and_eq_false_iff, decide_eq_false_iff_not]
    rcases hv with hlt | ⟨hgt, _⟩
    · left; omega
    · right; omega
  simp [decodeEsc, hexQuad_hex4 h, hs1, hs2, mkChar_toNat]

theorem decodeEsc_surrogate (c : Char) (cs : List Char) (h : 65536 ≤ c.toNat) :
    decodeEsc ('u' :: (hex4 (55296 + (c.toNat - 65536) / 1024) ++
        ('\\' :: 'u' :: (hex4 (56320 + (c.toNat - 65536) % 1024) ++ cs)))) =
      some (c, cs) := by
  have hlt := char_toNat_lt c
  have hdiv : (c.toNat - 65536) / 1024 < 1024 := by omega
  have hmod := Nat.mod_lt (c.toNat - 65536) (show 0 < 1024 by norm_num)
  have hhi : 55296 + (c.toNat - 65536) / 1024 < 65536 := by omega
  have hlo : 56320 + (c.toNat - 65536) % 1024 < 65536 := by omega
  simp only [decodeEsc, hexQuad_hex4 hhi, hexQuad_hex4 hlo, if_true, decide_True,
    Bool.and_self, eq_self_iff_true]
  rw [if_pos (show (decide (56320 ≤ 56320 + (c.toNat - 65536) % 1024) &&
      decide (56320 + (c.toNat - 65536) % 1024 ≤ 57343)) = true from by
    simp only [Bool.and_eq_true, decide_eq_true_eq]
    exact ⟨by omega, by omega⟩)]
  rw [show 65536 + (55296 + (c.toNat - 65536) / 1024 - 55296) * 1024 +
      (56320 + (c.toNat - 65536) % 1024 - 56320) = c.toNat from by omega]
  rw [mkChar_toNat]
  rw [if_pos (show (decide (55296 ≤ 55296 + (c.toNat - 65536) / 1024) &&
      decide (55296 + (c.toNat - 65536) / 1024 ≤ 56319)) = true from by
    simp only [Bool.and_eq_true, decide_eq_true_eq]
    exact ⟨by omega, by omega⟩)]

theorem parseStrLoop_esc_step (n : ℕ) (tail : List Char) (ch : Char) (rest2 : List Char)
    (hd : decodeEsc tail = some (ch, rest2)) :
    parseStrLoop (n + 1) ('\\' :: tail) =
      (parseStrLoop n rest2).map (fun p => (ch :: p.1, p.2)) := by
  simp [parseStrLoop, hd]

theorem parseStrLoop_raw_step (n : ℕ) (c : Char) (tail : List Char)
    (h1 : ¬(c = '\"')) (h2 : ¬(c = '\\')) (h3 : ¬(c.toNat < 32)) :
    parseStrLoop (n + 1) (c :: tail) =
      (parseStrLoop n tail).map (fun p => (c :: p.1, p.2)) := by
  simp [parseStrLoop, h1, h2, h3]

theorem parseStrLoop_escString (l : List Char) : ∀ (n : ℕ) (rest : List Char),
    l.length + 1 ≤ n →
    parseStrLoop n (escString l ++ '\"' :: rest) = some (l, rest) := by
  induction l with
  | nil =>
      intro n rest hn
      match n, hn with
      | n + 1, _ => simp [escString, parseStrLoop]
  | cons c cs ih =>
      intro n rest hn
      match n, hn with
      | n + 1, hn =>
        have hn' : cs.length + 1 ≤ n := by
          simp only [List.length_cons] at hn
          omega
        rw [show escString (c :: cs) ++ '\"' :: rest =
            escChar c ++ (escString cs ++ '\"' :: rest) from by simp [escString]]
        by_cases h1 : c = '\\'
        · subst h1
          rw [show escChar '\\' = ['\\', '\\'] from by decide]
          simp only [List.cons_append, List.nil_append]
          rw [parseStrLoop_esc_step n _ _ _
            (decodeEsc_short '\\' '\\' _ (by decide) (by decide)), ih n rest hn']
          rfl
        by_cases h2 : c = '\"'
        · subst h2
          rw [show escChar '\"' = ['\\', '\"'] from by decide]
          simp only [List.cons_append, List.nil_append]
          rw [parseStrLoop_esc_step n _ _ _
            (decodeEsc_short '\"' '\"' _ (by decide) (by decide)), ih n rest hn']
          rfl
        by_cases h3 : c = Char.ofNat 8
        · subst h3
          rw [show escChar (Char.ofNat 8) = ['\\', 'b'] from by decide]
          simp only [List.cons_append, List.nil_append]
          rw [parseStrLoop_esc_step n _ _ _
            (decodeEsc_short 'b' (Char.ofNat 8) _ (by decide) (by decide)),
            ih n rest hn']
          rfl
        by_cases h4 : c = Char.ofNat 12
        · subst h4
          rw [show escChar (Char.ofNat 12) = ['\\', 'f'] from by decide]
          simp only [List.cons_append, List.nil_append]
          rw [parseStrLoop_esc_step n _ _ _
            (decodeEsc_short 'f' (Char.ofNat 12) _ (by decide) (by decide)),
            ih n rest hn']
          rfl
        by_cases h5 : c = '\n'
        · subst h5
          rw [show escChar '\n' = ['\\', 'n'] from by decide]
          simp only [List.cons_append, List.nil_append]
          rw [parseStrLoop_esc_step n _ _ _
            (decodeEsc_short 'n' '\n' _ (by decide) (by decide)), ih n rest hn']
          rfl
        by_cases h6 : c = Char.ofNat 13
        · subst h6
          rw [show escChar (Char.ofNat 13) = ['\\', 'r'] from by decide]
          simp only [List.cons_append, List.nil_append]
          rw [parseStrLoop_esc_step n _ _ _
            (decodeEsc_short 'r' (Char.ofNat 13) _ (by decide) (by decide)),
            ih n rest hn']
          rfl
        by_cases h7 : c = '\t'
        · subst h7
          rw [show escChar '\t' = ['\\', 't'] from by decide]
          simp only [List.cons_append, List.nil_append]
          rw [parseStrLoop_esc_step n _ _ _
            (decodeEsc_short 't' '\t' _ (by decide) (by decide)), ih n rest hn']
          rfl
        by_cases hraw : 32 ≤ c.toNat ∧ c.toNat ≤ 126
        · have hesc : escChar c = [c] := by
            unfold escChar
            rw [if_neg h1, if_neg h2, if_neg h3, if_neg h4, if_neg h5, if_neg h6,
              if_neg h7,
              if_pos (show (32 ≤ c.toNat && c.toNat ≤ 126) = true from by
                simp only [Bool.and_eq_true, decide_eq_true_eq]
                exact hraw)]
          rw [hesc]
          simp only [List.cons_append, List.nil_append]
          rw [parseStrLoop_raw_step n c _ h2 h1 (by omega), ih n rest hn']
          rfl
        · have hrawb : (32 ≤ c.toNat && c.toNat ≤ 126) = false := by
            simp only [Bool.and_eq_false_iff, decide_eq_false_iff_not]
            omega
          by_cases hbmp : c.toNat < 65536
          · have hesc : escChar c = '\\' :: 'u' :: hex4 c.toNat := by
              unfold escChar
              rw [if_neg h1, if_neg h2, if_neg h3, if_neg h4, if_neg h5, if_neg h6,
                if_neg h7, if_neg (by rw [hrawb]; exact Bool.false_ne_true),
                if_pos hbmp]
            rw [hesc]
            simp only [List.cons_append, List.append_assoc]
            rw [parseStrLoop_esc_step n _ _ _ (decodeEsc_u c _ hbmp), ih n rest hn']
            rfl
          · have hesc : escChar c = '\\' :: 'u' :: hex4 (55296 + (c.toNat - 65536) / 1024)
                ++ ('\\' :: 'u' :: hex4 (56320 + (c.toNat - 65536) % 1024)) := by
              unfold escChar
              rw [if_neg h1, if_neg h2, if_neg h3, if_neg h4, if_neg h5, if_neg h6,
                if_neg h7, if_neg (by rw [hrawb]; exact Bool.false_ne_true),
                if_neg hbmp]
            rw [hesc]
            simp only [List.cons_append, List.append_assoc, List.nil_append]
            rw [parseStrLoop_esc_step n _ _ _
              (decodeEsc_surrogate c _ (by omega)), ih n rest hn']
            rfl

theorem escChar_length_pos (c : Char) : 1 ≤ (escChar c).length := by
  unfold escChar
  split_ifs <;> simp [hex4]

theorem escString_length_ge (l : List Char) : l.length ≤ (escString l).length := by
  induction l with
  | nil => simp [escString]
  | cons c cs ih =>
      simp only [escString, List.length_append, List.length_cons]
      have := escChar_length_pos c
      omega

theorem parseStrBody_escString (l rest : List Char) :
    parseStrBody (escString l ++ '\"' :: rest) = some (l, rest) := by
  apply parseStrLoop_escString
  have h := escString_length_ge l
  simp only [List.length_append, List.length_cons]
  omega

/-! ### Round trip of the scanner against `dumps`: values -/

theorem intChars_shape (nn : Int) (rest : List Char) :
    ∃ c t, intChars nn ++ rest = c :: t ∧ (isDigitChar c = true ∨ c = '-') := by
  cases nn with
  | ofNat m =>
      obtain ⟨c, t, hct, hd⟩ := natChars_head m
      exact ⟨c, t ++ rest, by simp [intChars, hct], Or.inl hd⟩
  | negSucc k =>
      exact ⟨'-', natChars (k + 1) ++ rest, by simp [intChars], Or.inr rfl⟩

theorem skipWs_dumpsVal (j : Json) (rest : List Char) :
    skipWs (dumpsVal j ++ rest) = dumpsVal j ++ rest := by
  cases j with
  | null =>
      simp only [dumpsVal, List.cons_append]
      exact skipWs_not_ws _ (by decide)
  | bool b =>
      cases b <;>
      · simp only [dumpsVal, List.cons_append]
        exact skipWs_not_ws _ (by decide)
  | num nn =>
      simp only [dumpsVal]
      obtain ⟨c, t, hct, hc⟩ := intChars_shape nn rest
      rw [hct]
      rcases hc with hd | hm
      · exact skipWs_not_ws _ (isDigitChar_not_ws hd)
      · subst hm; exact skipWs_not_ws _ (by decide)
  | str s =>
      simp only [dumpsVal, List.cons_append]
      exact skipWs_not_ws _ (by decide)
  | arr l =>
      cases l with
      | nil =>
          simp only [dumpsVal, List.cons_append]
          exact skipWs_not_ws _ (by decide)
      | cons x xs =>
          simp only [dumpsVal, List.cons_append]
          exact skipWs_not_ws _ (by decide)
  | obj fs =>
      cases fs with
      | nil =>
          simp only [dumpsVal, List.cons_append]
          exact skipWs_not_ws _ (by decide)
      | cons p rest2 =>
          obtain ⟨k, v⟩ := p
          simp only [dumpsVal, List.cons_append]
          exact skipWs_not_ws _ (by decide)

theorem setField_append (acc : List (String × Json)) (k : String) (v : Json)
    (h : hasField acc k = false) : setField acc k v = acc ++ [(k, v)] := by
  induction acc with
  | nil => rfl
  | cons p rest ih =>
      obtain ⟨k0, v0⟩ := p
      simp only [hasField] at h
      by_cases hk : k0 = k
      · rw [if_pos hk] at h
        exact absurd h (by simp)
      · rw [if_neg hk] at h
        simp only [setField, if_neg hk, List.cons_append, List.cons.injEq, true_and]
        exact ih h

theorem hasField_all_ne (fs : List (String × Json)) (k : String)
    (h : hasField fs k = false) : ∀ p ∈ fs, ¬(p.1 = k) := by
  induction fs with
  | nil =>
      intro p hp
      exact absurd hp (List.not_mem_nil p)
  | cons q rest ih =>
      obtain ⟨k0, v0⟩ := q
      simp only [hasField] at h
      by_cases hk : k0 = k
      · rw [if_pos hk] at h
        simp at h
      · rw [if_neg hk] at h
        intro p hp
        rcases List.mem_cons.mp hp with rfl | hmem
        · exact hk
        · exact ih h p hmem

theorem hasField_append (a b : List (String × Json)) (k : String) :
    hasField (a ++ b) k = (hasField a k || hasField b k) := by
  induction a with
  | nil => simp [hasField]
  | cons p rest ih =>
      obtain ⟨k0, v0⟩ := p
      by_cases hk : k0 = k <;> simp [hasField, hk, ih]

theorem foldl_setField_append (fs : List (String × Json)) : ∀ acc,
    (∀ p ∈ fs, hasField acc p.1 = false) → noDupKeys fs = true →
    fs.foldl (fun a p => setField a p.1 p.2) acc = acc ++ fs := by
  induction fs with
  | nil =>
      intro acc _ _
      simp
  | cons q rest ih =>
      intro acc hd hn
      obtain ⟨k, v⟩ := q
      simp only [noDupKeys, Bool.and_eq_true, Bool.not_eq_true'] at hn
      simp only [List.foldl_cons]
      rw [setField_append acc k v (hd (k, v) (List.mem_cons_self _ _))]
      rw [ih (acc ++ [(k, v)]) ?_ hn.2]
      · simp
      · intro p hp
        rw [hasField_append]
        have h1 : hasField acc p.1 = false := hd p (List.mem_cons_of_mem _ hp)
        have hne : ¬(k = p.1) := by
          have := hasField_all_ne rest k hn.1 p hp
          exact fun hkp => this hkp.symm
        have h2 : hasField [(k, v)] p.1 = false := by
          simp only [hasField, if_neg hne]
        rw [h1, h2]
        rfl

theorem dictFold_eq_self (fs : List (String × Json)) (h : noDupKeys fs = true) :
    dictFold fs = fs := by
  unfold dictFold
  rw [foldl_setField_append fs [] (by intro p _; rfl) h]
  simp

theorem fsize_pos (j : Json) : 1 ≤ fsize j := by
  cases j <;> simp [fsize]

theorem stringMk_data (s : String) : String.mk s.data = s := rfl

theorem parseVal_cons_space (m : ℕ) (cs : List Char) :
    parseVal m (' ' :: cs) = parseVal m cs := by
  cases m with
  | zero => rfl
  | succ m =>
      simp only [parseVal]
      rw [show skipWs (' ' :: cs) = skipWs cs from rfl]

theorem parseElems_cons_space (m : ℕ) (cs : List Char) :
    parseElems m (' ' :: cs) = parseElems m cs := by
  cases m with
  | zero => rfl
  | succ m =>
      simp only [parseElems]
      rw [parseVal_cons_space]

theorem parseFields_cons_space (m : ℕ) (cs : List Char) :
    parseFields m (' ' :: cs) = parseFields m cs := by
  cases m with
  | zero => rfl
  | succ m =>
      simp only [parseFields]
      rw [show skipWs (' ' :: cs) = skipWs cs from rfl]

theorem dumpsVal_head (j : Json) (rest : List Char) :
    ∃ c t, dumpsVal j ++ rest = c :: t ∧ isWsChar c = false ∧ ¬(c = ']') := by
  cases j with
  | null =>
      exact ⟨'n', 'u' :: 'l' :: 'l' :: rest, by simp [dumpsVal], by decide, by decide⟩
  | bool b =>
      cases b
      · exact ⟨'f', 'a' :: 'l' :: 's' :: 'e' :: rest, by simp [dumpsVal], by decide,
          by decide⟩
      · exact ⟨'t', 'r' :: 'u' :: 'e' :: rest, by simp [dumpsVal], by decide, by decide⟩
  | num nn =>
      obtain ⟨c, t, hct, hc⟩ := intChars_shape nn rest
      refine ⟨c, t, by simp [dumpsVal, hct], ?_, ?_⟩
      · rcases hc with hd | hm
        · exact isDigitChar_not_ws hd
        · subst hm; decide
      · rcases hc with hd | hm
        · apply char_ne_of_toNat_ne
          simp only [isDigitChar, Bool.and_eq_true, decide_eq_true_eq] at hd
          have : (']').toNat = 93 := by decide
          omega
        · subst hm; decide
  | str s =>
      exact ⟨'\"', escString s.data ++ ('\"' :: rest), by simp [dumpsVal], by decide,
        by decide⟩
  | arr l =>
      cases l with
      | nil => exact ⟨'[', ']' :: rest, by simp [dumpsVal], by decide, by decide⟩
      | cons x xs =>
          exact ⟨'[', (dumpsVal x ++ dumpsArrTail xs ++ [']']) ++ rest,
            by simp [dumpsVal], by decide, by decide⟩
  | obj fs =>
      cases fs with
      | nil => exact ⟨lbrace, rbrace :: rest, by simp [dumpsVal], by decide, by decide⟩
      | cons p fs2 =>
          obtain ⟨k, v⟩ := p
          exact ⟨lbrace, ('\"' :: (escString k.data ++ ('\"' :: ':' :: ' ' ::
              (dumpsVal v ++ dumpsObjTail fs2 ++ [rbrace])))) ++ rest,
            by simp [dumpsVal], by decide, by decide⟩

theorem parseVal_num_step (n : ℕ) (c : Char) (t : List Char)
    (hws : isWsChar c = false)
    (h1 : ¬(c = 'n')) (h2 : ¬(c = 't')) (h3 : ¬(c = 'f')) (h4 : ¬(c = '\"'))
    (h5 : ¬(c = '[')) (h6 : ¬(c = lbrace)) :
    parseVal (n + 1) (c :: t) =
      (match parseNumber (c :: t) with
       | none => none
       | some (v, r) => some (.num v, r)) := by
  simp only [parseVal]
  rw [skipWs_not_ws t hws]
  simp [h1, h2, h3, h4, h5, h6]

theorem parseVal_arr_step (n : ℕ) (c2 : Char) (r2 : List Char)
    (hws2 : isWsChar c2 = false) (hne : ¬(c2 = ']')) :
    parseVal (n + 1) ('[' :: (c2 :: r2)) =
      (match parseElems n (c2 :: r2) with
       | none => none
       | some (l, r) => some (.arr l, r)) := by
  simp only [parseVal]
  rw [show skipWs ('[' :: (c2 :: r2)) = '[' :: (c2 :: r2) from
    skipWs_not_ws _ (by decide)]
  simp [skipWs, hws2, hne]

theorem parseVal_obj_step (n : ℕ) (c2 : Char) (r2 : List Char)
    (hws2 : isWsChar c2 = false) (hne : ¬(c2 = rbrace)) :
    parseVal (n + 1) (lbrace :: (c2 :: r2)) =
      (match parseFields n (c2 :: r2) with
       | none => none
       | some (fs, r) => some (.obj (dictFold fs), r)) := by
  simp only [parseVal]
  rw [show skipWs (lbrace :: (c2 :: r2)) = lbrace :: (c2 :: r2) from
    skipWs_not_ws _ (by decide)]
  have e1 : ¬(lbrace = 'n') := by decide
  have e2 : ¬(lbrace = 't') := by decide
  have e3 : ¬(lbrace = 'f') := by decide
  have e4 : ¬(lbrace = '\"') := by decide
  have e5 : ¬(lbrace = '[') := by decide
  simp [skipWs, hws2, hne, e1, e2, e3, e4, e5]

theorem parse_dumps : ∀ n : ℕ,
    (∀ j rest, pyValid j = true → fsize j ≤ n → digitStart rest = false →
      parseVal n (dumpsVal j ++ rest) = some (j, rest)) ∧
    (∀ x xs rest, pyValidList (x :: xs) = true → fsizeList (x :: xs) ≤ n →
      parseElems n (dumpsVal x ++ (dumpsArrTail xs ++ ']' :: rest)) =
        some (x :: xs, rest)) ∧
    (∀ k v fs rest, pyValid v = true → pyValidFields fs = true →
      1 + fsize v + fsizeFields fs ≤ n →
      parseFields n ('\"' :: (escString k.data ++ ('\"' :: ':' :: ' ' ::
        (dumpsVal v ++ (dumpsObjTail fs ++ rbrace :: rest))))) =
        some ((k, v) :: fs, rest)) := by
  intro n
  induction n with
  | zero =>
      refine ⟨?_, ?_, ?_⟩
      · intro j rest _ hs _
        have := fsize_pos j
        omega
      · intro x xs rest _ hs
        simp only [fsizeList] at hs
        omega
      · intro k v fs rest _ _ hs
        omega
  | succ n ih =>
      obtain ⟨ihP, ihQ, ihR⟩ := ih
      refine ⟨?_, ?_, ?_⟩
      · intro j rest hv hs hrest
        cases j with
        | null =>
            simp only [dumpsVal, List.cons_append]
            simp [parseVal, skipWs, isWsChar]
        | bool b =>
            cases b <;>
            · simp only [dumpsVal, List.cons_append]
              simp [parseVal, skipWs, isWsChar]
        | num nn =>
            obtain ⟨c, t, hct, hc⟩ := intChars_shape nn rest
            have hws : isWsChar c = false := by
              rcases hc with hd | hm
              · exact isDigitChar_not_ws hd
              · subst hm; decide
            have htoN : 48 ≤ c.toNat ∧ c.toNat ≤ 57 ∨ c.toNat = 45 := by
              rcases hc with hd | hm
              · left
                simpa [isDigitChar, Bool.and_eq_true, decide_eq_true_eq] using hd
              · right; subst hm; decide
            have hnum : parseNumber (c :: t) = some (nn, rest) := by
              rw [← hct]
              exact parseNumber_intChars nn rest hrest
            have h1 : ¬(c = 'n') := char_ne_of_toNat_ne (by
              have : ('n').toNat = 110 := by decide
              omega)
            have h2 : ¬(c = 't') := char_ne_of_toNat_ne (by
              have : ('t').toNat = 116 := by decide
              omega)
            have h3 : ¬(c = 'f') := char_ne_of_toNat_ne (by
              have : ('f').toNat = 102 := by decide
              omega)
            have h4 : ¬(c = '\"') := char_ne_of_toNat_ne (by
              have : ('\"').toNat = 34 := by decide
              omega)
            have h5 : ¬(c = '[') := char_ne_of_toNat_ne (by
              have : ('[').toNat = 91 := by decide
              omega)
            have h6 : ¬(c = lbrace) := char_ne_of_toNat_ne (by
              have : lbrace.toNat = 123 := by decide
              omega)
            simp only [dumpsVal]
            rw [hct, parseVal_num_step n c t hws h1 h2 h3 h4 h5 h6, hnum]
        | str s =>
            simp only [dumpsVal, List.cons_append, List.append_assoc,
              List.singleton_append]
            simp [parseVal, skipWs, isWsChar, parseStrBody_escString, stringMk_data]
        | arr l =>
            cases l with
            | nil =>
                simp only [dumpsVal, List.cons_append]
                simp [parseVal, skipWs, isWsChar]
            | cons x xs =>
                have hvl : pyValidList (x :: xs) = true := by
                  simpa [pyValid] using hv
                have hsl : fsizeList (x :: xs) ≤ n := by
                  simp only [fsize] at hs
                  omega
                simp only [dumpsVal, List.cons_append, List.append_assoc,
                  List.singleton_append, List.nil_append]
                obtain ⟨c2, r2, hc2eq, hc2ws, hc2ne⟩ :=
                  dumpsVal_head x (dumpsArrTail xs ++ ']' :: rest)
                rw [hc2eq, parseVal_arr_step n c2 r2 hc2ws hc2ne, ← hc2eq,
                  ihQ x xs rest hvl hsl]
        | obj fs =>
            cases fs with
            | nil =>
                simp only [dumpsVal, List.cons_append]
                have e1 : ¬(lbrace = 'n') := by decide
                have e2 : ¬(lbrace = 't') := by decide
                have e3 : ¬(lbrace = 'f') := by decide
                have e4 : ¬(lbrace = '\"') := by decide
                have e5 : ¬(lbrace = '[') := by decide
                have w1 : isWsChar lbrace = false := by decide
                have w2 : isWsChar rbrace = false := by decide
                simp [parseVal, skipWs, w1, w2, e1, e2, e3, e4, e5]
            | cons p fs2 =>
                obtain ⟨k, v⟩ := p
                have hnd : noDupKeys ((k, v) :: fs2) = true := by
                  simp only [pyValid, Bool.and_eq_true] at hv
                  exact hv.1
                have hvv : pyValid v = true ∧ pyValidFields fs2 = true := by
                  simp only [pyValid, pyValidFields, Bool.and_eq_true] at hv
                  exact hv.2
                have hsz : 1 + fsize v + fsizeFields fs2 ≤ n := by
                  simp only [fsize, fsizeFields] at hs
                  omega
                simp only [dumpsVal, List.cons_append, List.append_assoc,
                  List.singleton_append, List.nil_append]
                rw [parseVal_obj_step n '\"' _ (by decide) (by decide),
                  ihR k v fs2 rest hvv.1 hvv.2 hsz]
                simp [dictFold_eq_self _ hnd]
      · intro x xs rest hvl hsl
        have hvx : pyValid x = true ∧ pyValidList xs = true := by
          simpa [pyValidList, Bool.and_eq_true] using hvl
        simp only [fsizeList] at hsl
        have hds : digitStart (dumpsArrTail xs ++ ']' :: rest) = false := by
          cases xs with
          | nil => simp [dumpsArrTail, digitStart, isDigitChar]
          | cons y ys => simp [dumpsArrTail, digitStart, isDigitChar]
        simp only [parseElems]
        rw [ihP x (dumpsArrTail xs ++ ']' :: rest) hvx.1 (by omega) hds]
        cases xs with
        | nil =>
            simp [dumpsArrTail, skipWs, isWsChar]
        | cons y ys =>
            have hvy : pyValid y = true ∧ pyValidList ys = true := by
              simpa [pyValidList, Bool.and_eq_true] using hvx.2
            have hfx := fsize_pos x
            have hihQ := ihQ y ys rest (by
                simp [pyValidList, Bool.and_eq_true]
                exact ⟨hvy.1, hvy.2⟩) (by
                simp only [fsizeList]
                simp only [fsizeList] at hsl
                omega)
            simp [dumpsArrTail, skipWs, isWsChar, parseElems_cons_space, hihQ,
              List.append_assoc]
      · intro k v fs rest hvv hvf hsz
        have hds2 : digitStart (dumpsObjTail fs ++ rbrace :: rest) = false := by
          cases fs with
          | nil =>
              have : isDigitChar rbrace = false := by decide
              simp [dumpsObjTail, digitStart, this]
          | cons q fs2 =>
              obtain ⟨k2, v2⟩ := q
              have : isDigitChar ',' = false := by decide
              simp [dumpsObjTail, digitStart, this]
        have hfv := fsize_pos v
        have hihP := ihP v (dumpsObjTail fs ++ rbrace :: rest) hvv (by omega) hds2
        have e1 : ¬(rbrace = ',') := by decide
        have w2 : isWsChar rbrace = false := by decide
        have w3 : isWsChar (':') = false := by decide
        have w4 : isWsChar '\"' = false := by decide
        have w5 : isWsChar ',' = false := by decide
        cases fs with
        | nil =>
            simp only [dumpsObjTail, List.nil_append] at hihP
            simp [parseFields, skipWs, w2, w3, w4, parseStrBody_escString,
              parseVal_cons_space, dumpsObjTail, stringMk_data, e1, hihP]
        | cons q fs2 =>
            obtain ⟨k2, v2⟩ := q
            have hvf2 : pyValid v2 = true ∧ pyValidFields fs2 = true := by
              simpa [pyValidFields, Bool.and_eq_true] using hvf
            have hihR := ihR k2 v2 fs2 rest hvf2.1 hvf2.2 (by
              simp only [fsizeFields] at hsz
              omega)
            simp only [dumpsObjTail, List.cons_append, List.append_assoc] at hihP
            simp [parseFields, skipWs, w2, w3, w4, w5, parseStrBody_escString,
              parseVal_cons_space, dumpsObjTail, stringMk_data, hihP,
              parseFields_cons_space, hihR, List.append_assoc]

theorem dumps_length : ∀ n : ℕ,
    (∀ j, fsize j ≤ n → fsize j ≤ (dumpsVal j).length) ∧
    (∀ l, fsizeList l ≤ n → fsizeList l ≤ (dumpsArrTail l).length) ∧
    (∀ fs, fsizeFields fs ≤ n → fsizeFields fs ≤ (dumpsObjTail fs).length) := by
  intro n
  induction n with
  | zero =>
      refine ⟨?_, ?_, ?_⟩
      · intro j hs
        have := fsize_pos j
        omega
      · intro l hs
        cases l with
        | nil => simp [fsizeList, dumpsArrTail]
        | cons x xs =>
            simp only [fsizeList] at hs
            omega
      · intro fs hs
        cases fs with
        | nil => simp [fsizeFields, dumpsObjTail]
        | cons q fs2 =>
            obtain ⟨k, v⟩ := q
            simp only [fsizeFields] at hs
            omega
  | succ n ih =>
      obtain ⟨ihA, ihB, ihC⟩ := ih
      refine ⟨?_, ?_, ?_⟩
      · intro j hs
        cases j with
        | null => simp [fsize, dumpsVal]
        | bool b => cases b <;> simp [fsize, dumpsVal]
        | num nn =>
            obtain ⟨c, t, hct, _⟩ := intChars_shape nn []
            simp only [List.append_nil] at hct
            simp [fsize, dumpsVal, hct]
        | str s => simp [fsize, dumpsVal]
        | arr l =>
            cases l with
            | nil => simp [fsize, fsizeList, dumpsVal]
            | cons x xs =>
                simp only [fsize, fsizeList] at hs ⊢
                have h1 := ihA x (by omega)
                have h2 := ihB xs (by omega)
                simp only [dumpsVal, List.length_cons, List.length_append]
                simp only [fsizeList] at h2 ⊢
                omega
        | obj fs =>
            cases fs with
            | nil => simp [fsize, fsizeFields, dumpsVal]
            | cons q fs2 =>
                obtain ⟨k, v⟩ := q
                simp only [fsize, fsizeFields] at hs ⊢
                have h1 := ihA v (by omega)
                have h2 := ihC fs2 (by omega)
                simp only [dumpsVal, List.length_cons, List.length_append]
                omega
      · intro l hs
        cases l with
        | nil => simp [fsizeList, dumpsArrTail]
        | cons x xs =>
            simp only [fsizeList] at hs ⊢
            have h1 := ihA x (by omega)
            have h2 := ihB xs (by omega)
            simp only [dumpsArrTail, List.length_cons, List.length_append]
            omega
      · intro fs hs
        cases fs with
        | nil => simp [fsizeFields, dumpsObjTail]
        | cons q fs2 =>
            obtain ⟨k, v⟩ := q
            simp only [fsizeFields] at hs ⊢
            have h1 := ihA v (by omega)
            have h2 := ihC fs2 (by omega)
            simp only [dumpsObjTail, List.length_cons, List.length_append]
            omega

theorem loads_dumps (j : Json) (h : pyValid j = true) : loads (dumps j) = some j := by
  unfold loads dumps
  have hdata : (String.mk (dumpsVal j)).data = dumpsVal j := rfl
  rw [hdata]
  have hlen : fsize j ≤ (dumpsVal j).length + 1 := by
    have := (dumps_length (fsize j)).1 j (le_refl _)
    omega
  have hP := (parse_dumps ((dumpsVal j).length + 1)).1 j [] h hlen (by
    simp [digitStart])
  rw [show dumpsVal j ++ ([] : List Char) = dumpsVal j from by simp] at hP
  rw [hP]
  simp [skipWs]

theorem pickLatest_append_max (l : List InsightsRow) (r : InsightsRow)
    (h : ∀ x ∈ l, x.generated_date < r.generated_date) :
    pickLatest (l ++ [r]) = some r := by
  induction l with
  | nil => simp [pickLatest]
  | cons x xs ih =>
      simp only [List.cons_append, pickLatest, List.append_eq]
      rw [ih (fun y hy => h y (List.mem_cons_of_mem _ hy))]
      simp [h x (List.mem_cons_self _ _)]

/-- **C10** (amended): for a JSON-serializable insights mapping whose
`response_metadata` member, when present, is itself a mapping,
`save_financial_insights` succeeds and an immediate `get_latest_insights`
(no intervening writes for the user, prior rows stamped strictly earlier)
returns a record whose `insights_data` equals the saved mapping: the
`json.dumps` / `json.loads` pair round-trips through the stored string
column. -/
theorem save_then_get_latest_roundtrip (store : List InsightsRow) (uid : String)
    (fs : List (String × Json)) (now : ℕ) (mf : List (String × Json))
    (hvalid : pyValid (Json.obj fs) = true)
    (hmeta : getField fs "response_metadata" (.obj []) = .obj mf)
    (hclock : ∀ r ∈ store, r.user_id = uid → r.generated_date < now) :
    (save_financial_insights store uid (.obj fs) now).1.success = true ∧
    ∃ out, get_latest_insights (save_financial_insights store uid (.obj fs) now).2
        uid none = some out ∧ out.insights_data = .obj fs := by
  have hsave : save_financial_insights store uid (.obj fs) now =
      (⟨true⟩, store ++
        [savedInsightsRow uid (.obj fs) now (getField mf "intent" (.str "general"))]) := by
    unfold save_financial_insights
    dsimp only
    rw [hmeta]
    rfl
  refine ⟨by rw [hsave], ?_⟩
  rw [hsave]
  have hfilter : ((store ++
      [savedInsightsRow uid (.obj fs) now
        (getField mf "intent" (.str "general"))]).filter (fun r => r.user_id = uid)) =
      (store.filter (fun r => r.user_id = uid)) ++
        [savedInsightsRow uid (.obj fs) now (getField mf "intent" (.str "general"))] := by
    rw [List.filter_append]
    simp [savedInsightsRow]
  have hpick : pickLatest ((store.filter (fun r => r.user_id = uid)) ++
      [savedInsightsRow uid (.obj fs) now (getField mf "intent" (.str "general"))]) =
      some (savedInsightsRow uid (.obj fs) now
        (getField mf "intent" (.str "general"))) := by
    apply pickLatest_append_max
    intro x hx
    have hm := List.mem_filter.mp hx
    exact hclock x hm.1 (by simpa using hm.2)
  refine ⟨{ user_id := uid, insights_data := .obj fs, generated_date := now,
            insights_type := getField mf "intent" (.str "general") }, ?_, rfl⟩
  simp only [get_latest_insights, hfilter, hpick]
  simp only [savedInsightsRow, loads_dumps _ hvalid]

/-- **C10** (counterexample to the unconditional round trip): a mapping
whose `response_metadata` member is not itself a mapping makes
`save_financial_insights` raise `AttributeError` inside the `try`
(`.get` on a non-dict) while deriving `insights_type`; the save reports
`success: False`, nothing is stored, and `get_latest_insights` finds no
record. -/
theorem save_metadata_not_mapping_fails :
    (save_financial_insights [] "u1"
        (.obj [("response_metadata", .str "oops")]) 5).1.success = false ∧
    (save_financial_insights [] "u1"
        (.obj [("response_metadata", .str "oops")]) 5).2 = [] ∧
    get_latest_insights
      (save_financial_insights [] "u1"
        (.obj [("response_metadata", .str "oops")]) 5).2 "u1" none = none := by
  refine ⟨?_, ?_, ?_⟩ <;> rfl

/-- Witness for the amended C10 at a concrete store and mapping. -/
theorem save_then_get_latest_roundtrip_witness :
    (save_financial_insights [] "u1"
        (.obj [("total", .num 3),
               ("response_metadata", .obj [("intent", .str "budget")])]) 7).1.success
      = true ∧
    ∃ out, get_latest_insights
        (save_financial_insights [] "u1"
          (.obj [("total", .num 3),
                 ("response_metadata", .obj [("intent", .str "budget")])]) 7).2
        "u1" none = some out ∧
      out.insights_data =
        .obj [("total", .num 3),
              ("response_metadata", .obj [("intent", .str "budget")])] :=
  save_then_get_latest_roundtrip [] "u1"
    [("total", .num 3), ("response_metadata", .obj [("intent", .str "budget")])] 7
    [("intent", .str "budget")]
    (by simp [pyValid, pyValidFields, noDupKeys, hasField])
    (by simp [getField, lookupField])
    (fun r hr => absurd hr (List.not_mem_nil r))
